import Mathlib

/-!
Verification development for the TWIX anonymizer
(`src/twixanonymizer/anonymize.py`).

The Python core is embedded shallowly:

* header strings are `List Char` (the file bytes are decoded with latin-1,
  a byte-preserving single-byte charset, so characters are exactly the
  bytes `0..255`);
* the regular-expression operations `re.search` / `re.sub` are embedded by
  a small backtracking matcher `matchRe` over the regex abstract syntax
  `Re`, which covers exactly the constructs appearing in the source's
  pattern catalog (literals, character classes, greedy `*`/`+`/`?`,
  bounded repetition, concatenation and numbered capture groups), with
  Python's leftmost / greedy / backtracking semantics;
* `datetime.strptime(s, "%y%m%d")` is embedded by `strptimeYMD` /
  `getDate`, following CPython's `_strptime` regex (including its
  alternative ordering and the 1969 two-digit-year pivot) and the
  calendar validation done by the `datetime` constructor;
* binary containers are `List Nat` byte lists; the output file handle is
  `OutFile` with Python's seek/write semantics (seeking past the end and
  writing zero-fills the gap).

Character classes (`\s`, `\d`, `\w`) follow Python 3 `str` patterns
restricted to the latin-1 range, which is the whole domain here.
-/

namespace TwixAnon

/-- `lo ≤ n ∧ n ≤ hi` as a `Bool`. -/
def between (lo hi n : Nat) : Bool := decide (lo ≤ n ∧ n ≤ hi)

/-- Python `\d` on characters in the latin-1 range: the ASCII digits
(the only Unicode `Nd` characters below 256). -/
def isDigitChar (c : Char) : Bool := between 48 57 c.toNat

/-- Python `\s` on characters in the latin-1 range:
space, TAB, LF, VT, FF, CR, FS, GS, RS, US, NEL (0x85), NBSP (0xA0). -/
def isSpaceChar (c : Char) : Bool :=
  c.toNat == 32 || between 9 13 c.toNat || between 28 31 c.toNat ||
  c.toNat == 133 || c.toNat == 160

/-- Python `\w` on characters in the latin-1 range: ASCII alphanumerics,
underscore, and the latin-1 letters/number-signs that are alphanumeric in
Unicode (ª, ², ³, µ, ¹, º, ¼, ½, ¾, À–Ö, Ø–ö, ø–ÿ). -/
def isWordChar (c : Char) : Bool :=
  between 48 57 c.toNat || between 97 122 c.toNat || between 65 90 c.toNat ||
  c.toNat == 95 || c.toNat == 170 || c.toNat == 178 || c.toNat == 179 ||
  c.toNat == 181 || c.toNat == 185 || c.toNat == 186 ||
  between 188 190 c.toNat || between 192 214 c.toNat ||
  between 216 246 c.toNat || between 248 255 c.toNat

/-- Python `.` (DOTALL off): any character except a newline. -/
def isNotNL (c : Char) : Bool := c != '\n'

/-- The class `[\d\.]` from the final-sweep pattern. -/
def isDigitOrDot (c : Char) : Bool := isDigitChar c || c == '.'

/-! ### Regex abstract syntax and Python-semantics matcher -/

/-- Abstract syntax for the regex constructs used by the source's pattern
catalog.  `star`/`plus`/`rep` are restricted to character classes, which
is all the source uses under a quantifier (apart from `(...)?`, covered
by `opt`). -/
inductive Re where
  | lit : List Char → Re
  | cls : (Char → Bool) → Re
  | star : (Char → Bool) → Re
  | plus : (Char → Bool) → Re
  | rep : (Char → Bool) → Nat → Re
  | opt : Re → Re
  | cat : Re → Re → Re
  | group : Nat → Re → Re

/-- Capture-group environment: group number ↦ captured text, most recent
first (all patterns in the catalog bind each group number at most once
per match). -/
abbrev Caps := List (Nat × List Char)

/-- The group numbers syntactically occurring in a regex. -/
def reGroups : Re → List Nat
  | .lit _ => []
  | .cls _ => []
  | .star _ => []
  | .plus _ => []
  | .rep _ _ => []
  | .opt r => reGroups r
  | .cat r1 r2 => reGroups r1 ++ reGroups r2
  | .group n r => n :: reGroups r

/-- Greedy backtracking over the number of class characters consumed by a
`*`/`+`: try the continuation after consuming `n` characters, then
`n - 1`, …, down to `0`. -/
def tryLens {α : Type} (k : List Char → Caps → Option α) (s : List Char)
    (caps : Caps) : Nat → Option α
  | 0 => k s caps
  | n + 1 =>
    match k (s.drop (n + 1)) caps with
    | some r => some r
    | none => tryLens k s caps n

/-- CPS backtracking matcher with Python semantics: greedy quantifiers,
ordered alternatives, numbered captures.  `matchRe r s caps k` tries to
match `r` at the start of `s` and calls `k` with the rest of the input
and the extended capture environment, backtracking on failure. -/
def matchRe {α : Type} : Re → List Char → Caps →
    (List Char → Caps → Option α) → Option α
  | .lit cs, s, caps, k =>
    if cs.isPrefixOf s then k (s.drop cs.length) caps else none
  | .cls p, s, caps, k =>
    match s with
    | [] => none
    | c :: rest => if p c then k rest caps else none
  | .star p, s, caps, k => tryLens k s caps (s.takeWhile p).length
  | .plus p, s, caps, k =>
    match s with
    | [] => none
    | c :: rest =>
      if p c then tryLens k rest caps (rest.takeWhile p).length else none
  | .rep p n, s, caps, k =>
    if (s.take n).length = n ∧ (s.take n).all p then k (s.drop n) caps
    else none
  | .opt r, s, caps, k =>
    match matchRe r s caps k with
    | some res => some res
    | none => k s caps
  | .cat r1 r2, s, caps, k =>
    matchRe r1 s caps (fun s2 caps2 => matchRe r2 s2 caps2 k)
  | .group n r, s, caps, k =>
    matchRe r s caps
      (fun s2 caps2 => k s2 ((n, s.take (s.length - s2.length)) :: caps2))

/-- Match a regex anchored at the start of `s`; returns the number of
characters consumed and the captures (like Python's `re.match`). -/
def matchAt (r : Re) (s : List Char) : Option (Nat × Caps) :=
  matchRe r s [] (fun s2 caps => some (s.length - s2.length, caps))

/-- Python `re.search`: try each start position from the left (including
the empty position at the end); returns (start, length, captures). -/
def reSearchAux (r : Re) : List Char → Option (Nat × Nat × Caps)
  | [] => (matchAt r []).map (fun lc => (0, lc.1, lc.2))
  | c :: rest =>
    match matchAt r (c :: rest) with
    | some (len, caps) => some (0, len, caps)
    | none => (reSearchAux r rest).map (fun x => (x.1 + 1, x.2.1, x.2.2))

/-- Python `re.search` over a whole string. -/
def reSearch (r : Re) (s : List Char) : Option (Nat × Nat × Caps) :=
  reSearchAux r s

/-- Python `match.group n`: `none` when the group did not participate. -/
def capGroup (caps : Caps) (n : Nat) : Option (List Char) := caps.lookup n

/-- Python `re.sub` with a replacement function, fuelled for structural
recursion (`fuel ≥ length of the input` suffices: every step consumes at
least one character). -/
def reSubF (r : Re) (f : Caps → List Char → List Char) :
    Nat → List Char → List Char
  | _, [] =>
    match matchAt r [] with
    | some (_, caps) => f caps []
    | none => []
  | 0, s => s
  | fuel + 1, c :: rest =>
    match matchAt r (c :: rest) with
    | some (len, caps) =>
      if len = 0 then f caps [] ++ c :: reSubF r f fuel rest
      else
        f caps ((c :: rest).take len) ++ reSubF r f fuel ((c :: rest).drop len)
    | none => c :: reSubF r f fuel rest

/-- Python `re.sub pattern f s` (replace every non-overlapping match,
scanning from the left). -/
def reSub (r : Re) (f : Caps → List Char → List Char) (s : List Char) :
    List Char :=
  reSubF r f s.length s

/-! ### Python `str` helpers -/

/-- Python `s.split(".")`, accumulator-based. -/
def splitDotAux (cur : List Char) : List Char → List (List Char)
  | [] => [cur.reverse]
  | c :: rest =>
    if c = '.' then cur.reverse :: splitDotAux [] rest
    else splitDotAux (c :: cur) rest

/-- Python `s.split(".")`: every `.` separates; no collapsing. -/
def splitOnDot (s : List Char) : List (List Char) := splitDotAux [] s

/-- Python slice `s[:-n]` (empty when `len s ≤ n`). -/
def pyDropLastN {α : Type} (n : Nat) (l : List α) : List α :=
  l.take (l.length - n)

/-- Python slice `s[-n:]` (whole list when `len s ≤ n`). -/
def pyTakeLastN {α : Type} (n : Nat) (l : List α) : List α :=
  l.drop (l.length - n)

/-! ### `_get_date`: CPython `strptime(s, "%y%m%d")` plus calendar check -/

/-- The decimal digit characters. -/
def digitChar (n : Nat) : Char :=
  match n with
  | 0 => '0' | 1 => '1' | 2 => '2' | 3 => '3' | 4 => '4'
  | 5 => '5' | 6 => '6' | 7 => '7' | 8 => '8' | _ => '9'

/-- Numeric value of a digit character. -/
def digitVal (c : Char) : Nat := c.toNat - 48

/-- Candidate parses for `%m`, CPython `_strptime` alternative order
`1[0-2]|0[1-9]|[1-9]`, most preferred first. -/
def parseM : List Char → List (Nat × List Char)
  | c1 :: c2 :: rest =>
    (if c1 = '1' ∧ '0' ≤ c2 ∧ c2 ≤ '2' then [(10 + digitVal c2, rest)] else []) ++
    (if c1 = '0' ∧ '1' ≤ c2 ∧ c2 ≤ '9' then [(digitVal c2, rest)] else []) ++
    (if '1' ≤ c1 ∧ c1 ≤ '9' then [(digitVal c1, c2 :: rest)] else [])
  | [c1] => if '1' ≤ c1 ∧ c1 ≤ '9' then [(digitVal c1, [])] else []
  | [] => []

/-- Candidate parses for `%d`, CPython `_strptime` alternative order
`3[01]|[12]\d|0[1-9]|[1-9]`, most preferred first. -/
def parseD : List Char → List (Nat × List Char)
  | c1 :: c2 :: rest =>
    (if c1 = '3' ∧ ('0' ≤ c2 ∧ c2 ≤ '1') then [(30 + digitVal c2, rest)] else []) ++
    (if ('1' ≤ c1 ∧ c1 ≤ '2') ∧ ('0' ≤ c2 ∧ c2 ≤ '9') then
      [(10 * digitVal c1 + digitVal c2, rest)] else []) ++
    (if c1 = '0' ∧ ('1' ≤ c2 ∧ c2 ≤ '9') then [(digitVal c2, rest)] else []) ++
    (if '1' ≤ c1 ∧ c1 ≤ '9' then [(digitVal c1, c2 :: rest)] else [])
  | [c1] => if '1' ≤ c1 ∧ c1 ≤ '9' then [(digitVal c1, [])] else []
  | [] => []

/-- CPython `_strptime` on format `%y%m%d`: `%y` is `\d\d`; then the
first `(month, day)` alternative pair (in the regex's preference order)
gives the match; afterwards the whole string must have been consumed
("unconverted data remains" is an error, with no further backtracking). -/
def strptimeYMD (s : List Char) : Option (Nat × Nat × Nat) :=
  match s with
  | c1 :: c2 :: rest =>
    if isDigitChar c1 && isDigitChar c2 then
      match (parseM rest).findSome?
          (fun mc => ((parseD mc.2).head?).map (fun dc => (mc.1, dc.1, dc.2))) with
      | some (m, d, rest3) =>
        if rest3 = [] then some (10 * digitVal c1 + digitVal c2, m, d) else none
      | none => none
    else none
  | _ => none

/-- CPython two-digit-year pivot: `00..68 ↦ 2000..2068`,
`69..99 ↦ 1969..1999`. -/
def pivotYear (yy : Nat) : Nat := if yy ≤ 68 then 2000 + yy else 1900 + yy

/-- Gregorian leap-year rule, as in `datetime`. -/
def isLeapYear (y : Nat) : Bool :=
  (y % 4 == 0 && y % 100 != 0) || y % 400 == 0

/-- Days in a month, as validated by the `datetime` constructor. -/
def daysInMonth (y m : Nat) : Nat :=
  if m = 2 then (if isLeapYear y then 29 else 28)
  else if m = 4 ∨ m = 6 ∨ m = 9 ∨ m = 11 then 30
  else 31

/-- Two-digit zero-padded decimal rendering (`%m`, `%d`). -/
def pad2 (n : Nat) : List Char := [digitChar (n / 10 % 10), digitChar (n % 10)]

/-- `strftime("%Y-%m-%d")` for the years reachable here (≥ 1969). -/
def dateFormat (y m d : Nat) : List Char :=
  (Nat.repr y).data ++ '-' :: pad2 m ++ '-' :: pad2 d

/-- `TwixAnonymizer._get_date`: parse with `strptime(·, "%y%m%d")`
(failure raises, modelled as `none`), validate the calendar date, and
render as `%Y-%m-%d`. -/
def get_date (s : List Char) : Option (List Char) :=
  match strptimeYMD s with
  | none => none
  | some (yy, m, d) =>
    let y := pivotYear yy
    if 1 ≤ m ∧ m ≤ 12 ∧ 1 ≤ d ∧ d ≤ daysInMonth y m then
      some (dateFormat y m d)
    else none

/-! ### The pattern catalog

Each Python regex from the source is transcribed construct by construct.
`pat3` is the common three-group shape `(prefix)(value)(suffix)`; `pat4`
is the shape `(prefix(visible)?…)(value)(suffix)` whose groups are
numbered 1, 3, 4 with the optional `<Visible>` sub-syntax as group 2
inside group 1. -/

/-- Literal regex fragment. -/
def L (s : String) : Re := .lit s.data

/-- Right-nested concatenation of a fragment list. -/
def seq : List Re → Re
  | [] => .lit []
  | [r] => r
  | r :: rs => .cat r (seq rs)

/-- `\s*`. -/
def wsRe : Re := .star isSpaceChar

/-- Three top-level capture groups `(a)(b)(c)`, numbered 1, 2, 3. -/
def pat3 (a b c : Re) : Re := .cat (.group 1 a) (.cat (.group 2 b) (.group 3 c))

/-- Top-level capture groups numbered 1, 3, 4 (group 2 may occur inside
the first group). -/
def pat4 (a b c : Re) : Re := .cat (.group 1 a) (.cat (.group 3 b) (.group 4 c))

/-- `(\s*<Visible>\s*\"true\"\s*)?` — optional group 2. -/
def visRe : Re :=
  .opt (.group 2 (seq [wsRe, L "<Visible>", wsRe, L "\"true\"", wsRe]))

/-- `(<ParamString.\"KEY\">\s*\{\s*\")(.+)(\"\s*\}\n)` — the common
`ParamString` pattern of `number_buffer` and of the string-valued
`meta_buffer` entries. -/
def paramStrPat (key : String) : Re :=
  pat3 (seq [L ("<ParamString.\"" ++ key ++ "\">"), wsRe, L "\x7b", wsRe, L "\""])
       (.plus isNotNL)
       (seq [L "\"", wsRe, L "\x7d\n"])

/-- `(<ParamLong.\"KEY\">\s*\{\s*)(\d+)(\s*\}\n)` — `meta_buffer`
`ParamLong` pattern. -/
def paramLongPat (key : String) : Re :=
  pat3 (seq [L ("<ParamLong.\"" ++ key ++ "\">"), wsRe, L "\x7b", wsRe])
       (.plus isDigitChar)
       (seq [wsRe, L "\x7d\n"])

/-- `(<ParamDouble.\"KEY\">\s*\{\s*<Precision> \d+\s*)(\d+\.\d*)(\s*\}\n)`
— `meta_buffer` `ParamDouble` pattern. -/
def paramDoublePat (key : String) : Re :=
  pat3 (seq [L ("<ParamDouble.\"" ++ key ++ "\">"), wsRe, L "\x7b", wsRe,
             L "<Precision> ", .plus isDigitChar, wsRe])
       (seq [.plus isDigitChar, L ".", .star isDigitChar])
       (seq [wsRe, L "\x7d\n"])

/-- `number_buffer` (policy: whole value ↦ zeros). -/
def number_buffer : List (String × Re) :=
  [("Patient_id", paramStrPat "PatientID"),
   ("Device_serial", paramStrPat "DeviceSerialNumber"),
   ("Exam_memory_uid", paramStrPat "ExamMemoryUID"),
   ("PatientLOID", paramStrPat "PatientLOID"),
   ("StudyLOID", paramStrPat "StudyLOID"),
   ("SeriesLOID", paramStrPat "SeriesLOID"),
   ("Study", paramStrPat "Study"),
   ("FrameOfReference", paramStrPat "FrameOfReference"),
   ("Patient", paramStrPat "Patient"),
   ("MeasUID", paramStrPat "MeasUID")]

/-- `(<ParamString.\"t?Patients?Name\">\s*\{(\s*<Visible>\s*\"true\"\s*)?\s*\")(.+)(\"\s*\}\n)`. -/
def xPatientNamePat : Re :=
  pat4 (seq [L "<ParamString.\"", .opt (L "t"), L "Patient", .opt (L "s"),
             L "Name\">", wsRe, L "\x7b", visRe, wsRe, L "\""])
       (.plus isNotNL)
       (seq [L "\"", wsRe, L "\x7d\n"])

/-- `(<ParamString.\"InstitutionAddress\">\s*\{(\s*<Visible>\s*\"true\"\s*)?\s*\")(.+)(\"\s*\}\n)`. -/
def xInstitutionAddressPat : Re :=
  pat4 (seq [L "<ParamString.\"InstitutionAddress\">", wsRe, L "\x7b", visRe,
             wsRe, L "\""])
       (.plus isNotNL)
       (seq [L "\"", wsRe, L "\x7d\n"])

/-- `(<ParamString.\"InstitutionName\">\s*\{(\s*<Visible>\s*\"true\"\s*)?\s*\")(.+)(\"\s*\}\n)`. -/
def xInstitutionNamePat : Re :=
  pat4 (seq [L "<ParamString.\"InstitutionName\">", wsRe, L "\x7b", visRe,
             wsRe, L "\""])
       (.plus isNotNL)
       (seq [L "\"", wsRe, L "\x7d\n"])

/-- `x_buffer` (policy: mask with `x`; no-match is a hard failure). -/
def x_buffer : List (String × Re) :=
  [("Patient_name", xPatientNamePat),
   ("InstitutionAddress", xInstitutionAddressPat),
   ("InstitutionName", xInstitutionNamePat)]

/-- `(<ParamLong.\"l?PatientSex\">\s*\{(vis)?\s*)(\d+)(\s*\}\n)`. -/
def zeroGenderPat : Re :=
  pat4 (seq [L "<ParamLong.\"", .opt (L "l"), L "PatientSex\">", wsRe,
             L "\x7b", visRe, wsRe])
       (.plus isDigitChar)
       (seq [wsRe, L "\x7d\n"])

/-- `(<ParamDouble.\"flPatientAge\">\s*\{(vis)?\s*<Precision> \d+\s*)(\d+\.\d*)(\s*\}\n)`. -/
def zeroAgePat : Re :=
  pat4 (seq [L "<ParamDouble.\"flPatientAge\">", wsRe, L "\x7b", visRe, wsRe,
             L "<Precision> ", .plus isDigitChar, wsRe])
       (seq [.plus isDigitChar, L ".", .star isDigitChar])
       (seq [wsRe, L "\x7d\n"])

/-- `(<ParamDouble.\"flUsedPatientWeight\">\s*\{(vis)?\s*<Precision> \d+\s*)(\d+\.\d*)(\s*\}\n)`. -/
def zeroWeightPat : Re :=
  pat4 (seq [L "<ParamDouble.\"flUsedPatientWeight\">", wsRe, L "\x7b", visRe,
             wsRe, L "<Precision> ", .plus isDigitChar, wsRe])
       (seq [.plus isDigitChar, L ".", .star isDigitChar])
       (seq [wsRe, L "\x7d\n"])

/-- `(<ParamDouble.\"flPatientHeight\">\s*\{(vis)?\s*<Unit> \"\[mm\]\"\s*<Precision> \d+\s*)(\d+\.\d*)(\s*\}\n)`. -/
def zeroHeightPat : Re :=
  pat4 (seq [L "<ParamDouble.\"flPatientHeight\">", wsRe, L "\x7b", visRe,
             wsRe, L "<Unit> \"[mm]\"", wsRe, L "<Precision> ",
             .plus isDigitChar, wsRe])
       (seq [.plus isDigitChar, L ".", .star isDigitChar])
       (seq [wsRe, L "\x7d\n"])

/-- `(<ParamString.\"PatientBirthDay\">\s*\{(vis)?\s*\")(\d{8})(\"\s*\}\n)`. -/
def zeroBirthdayPat : Re :=
  pat4 (seq [L "<ParamString.\"PatientBirthDay\">", wsRe, L "\x7b", visRe,
             wsRe, L "\""])
       (.rep isDigitChar 8)
       (seq [L "\"", wsRe, L "\x7d\n"])

/-- `(<ParamLong.\"ulVersion\">\s*\{(vis)?\s*)(\d+)(\s*\}\n)`. -/
def zeroVersionPat : Re :=
  pat4 (seq [L "<ParamLong.\"ulVersion\">", wsRe, L "\x7b", visRe, wsRe])
       (.plus isDigitChar)
       (seq [wsRe, L "\x7d\n"])

/-- `zero_buffer` (policy: each digit of the value ↦ `0`). -/
def zero_buffer : List (String × Re) :=
  [("Patient_gender", zeroGenderPat),
   ("Patient_age", zeroAgePat),
   ("Patient_weight", zeroWeightPat),
   ("Patient_height", zeroHeightPat),
   ("Patient_birthday", zeroBirthdayPat),
   ("ulVersion", zeroVersionPat)]

/-- `meta_buffer` (policy: extract only, no rewrite). -/
def meta_buffer : List (String × Re) :=
  [("tBodyPartExamined", paramStrPat "tBodyPartExamined"),
   ("Sequence", paramStrPat "SequenceDescription"),
   ("TurboFactor", paramLongPat "TurboFactor"),
   ("ReadoutOversamplingFactor", paramDoublePat "ReadoutOversamplingFactor"),
   ("NSlc", paramLongPat "NSlc"),
   ("PhaseEncodingLines", paramLongPat "PhaseEncodingLines"),
   ("ReadFoV", paramDoublePat "ReadFoV"),
   ("PhaseFoV", paramDoublePat "PhaseFoV"),
   ("PhaseResolution", paramDoublePat "PhaseResolution"),
   ("TR", paramDoublePat "TR"),
   ("TI", paramDoublePat "TI"),
   ("flMagneticFieldStrength", paramDoublePat "flMagneticFieldStrength"),
   ("PatientPosition", paramStrPat "PatientPosition")]

/-- `(<ParamString.\"FrameOfReference\">  { )(\".+\")(  }\n)` — the
exam-date extraction pattern (literal two-space layout; group 2 keeps the
surrounding quotes). -/
def forDatePat : Re :=
  pat3 (L "<ParamString.\"FrameOfReference\">  \x7b ")
       (seq [L "\"", .plus isNotNL, L "\""])
       (L "  \x7d\n")

/-- `\"[\d\.]*EXAMDATE[\d\.]*\"` — the final sweep pattern (the derived
exam date is spliced in literally; on success paths it is all digits). -/
def sweepPat (d : List Char) : Re :=
  seq [L "\"", .star isDigitOrDot, .lit d, .star isDigitOrDot, L "\""]

/-! ### The field redactor `anonymize_twix_header` -/

/-- Field name ↦ original extracted value, in insertion order. -/
abbrev Matches := List (String × List Char)

/-- Intermediate redactor state: current header text and match record. -/
abbrev HState := List Char × Matches

/-- Replacement for `number_buffer` matches:
`"".join((m.group(1), "0" * len(m.group(2)), m.group(3)))`. -/
def numberRepl (caps : Caps) (_matched : List Char) : List Char :=
  (capGroup caps 1).getD [] ++
  List.replicate ((capGroup caps 2).getD []).length '0' ++
  (capGroup caps 3).getD []

/-- Replacement for `zero_buffer` matches:
`"".join((m.group(1), re.sub(r"\d", "0", m.group(3)), m.group(4)))`. -/
def zeroRepl (caps : Caps) (_matched : List Char) : List Char :=
  (capGroup caps 1).getD [] ++
  ((capGroup caps 3).getD []).map (fun c => if isDigitChar c then '0' else c) ++
  (capGroup caps 4).getD []

/-- Replacement for `x_buffer` matches:
`"".join((m.group(1), "x" * len(m.group(3)), m.group(4)))`. -/
def xRepl (caps : Caps) (_matched : List Char) : List Char :=
  (capGroup caps 1).getD [] ++
  List.replicate ((capGroup caps 3).getD []).length 'x' ++
  (capGroup caps 4).getD []

/-- Replacement for the final sweep: `re.sub(r"\w", "x", m.group())`. -/
def sweepRepl (_caps : Caps) (matched : List Char) : List Char :=
  matched.map (fun c => if isWordChar c then 'x' else c)

/-- One `number_buffer` iteration: search; if found, record group 2 and
substitute every match; otherwise skip silently. -/
def numberStep (st : HState) (key : String) (pat : Re) : HState :=
  match reSearch pat st.1 with
  | some (_, _, caps) =>
    (reSub pat numberRepl st.1, st.2 ++ [(key, (capGroup caps 2).getD [])])
  | none => st

/-- One `zero_buffer` iteration: search; if found, record group 3 and
substitute every match; otherwise skip silently. -/
def zeroStep (st : HState) (key : String) (pat : Re) : HState :=
  match reSearch pat st.1 with
  | some (_, _, caps) =>
    (reSub pat zeroRepl st.1, st.2 ++ [(key, (capGroup caps 3).getD [])])
  | none => st

/-- One `x_buffer` iteration: `match.group(3)` is taken without a `None`
check, so a failed search raises (modelled as `none`). -/
def xStep (st : HState) (key : String) (pat : Re) : Option HState :=
  match reSearch pat st.1 with
  | some (_, _, caps) =>
    some (reSub pat xRepl st.1, st.2 ++ [(key, (capGroup caps 3).getD [])])
  | none => none

/-- One `meta_buffer` iteration: record group 2 if found; never rewrites. -/
def metaStep (st : HState) (key : String) (pat : Re) : HState :=
  match reSearch pat st.1 with
  | some (_, _, caps) => (st.1, st.2 ++ [(key, (capGroup caps 2).getD [])])
  | none => st

/-- The exam-date derivation of `anonymize_twix_header`: search the
two-space `FrameOfReference` pattern (a failed search raises
`AttributeError`), split the quoted capture on `.`, index component 10
(`IndexError` when absent), slice characters 2..8. -/
def examDateOf (h : List Char) : Option (List Char) :=
  (reSearch forDatePat h).bind fun slc =>
  (capGroup slc.2.2 2).bind fun fro =>
  ((splitOnDot fro).get? 10).map fun exam_date_time =>
    (exam_date_time.drop 2).take 6

/-- The `number_buffer` loop. -/
def numberPhase (st : HState) : HState :=
  number_buffer.foldl (fun st kp => numberStep st kp.1 kp.2) st

/-- The `zero_buffer` loop. -/
def zeroPhase (st : HState) : HState :=
  zero_buffer.foldl (fun st kp => zeroStep st kp.1 kp.2) st

/-- The `x_buffer` loop (unrolled: the catalog is fixed); a failed match
in any iteration raises. -/
def xPhase (st : HState) : Option HState :=
  (xStep st "Patient_name" xPatientNamePat).bind fun st3 =>
  (xStep st3 "InstitutionAddress" xInstitutionAddressPat).bind fun st4 =>
  xStep st4 "InstitutionName" xInstitutionNamePat

/-- The `meta_buffer` loop. -/
def metaPhase (st : HState) : HState :=
  meta_buffer.foldl (fun st kp => metaStep st kp.1 kp.2) st

/-- `TwixAnonymizer.anonymize_twix_header`: derive the exam date from the
`FrameOfReference` field (any failure — no match, fewer than 11
dot-components, unparsable date — raises, modelled as `none`); then apply
the `number`, `zero`, `x` and `meta` passes in order; finally sweep
quoted digit/dot strings containing the raw exam date. -/
def anonymize_twix_header (h : List Char) : Option (List Char × Matches) :=
  (examDateOf h).bind fun exam_date =>
  (get_date exam_date).bind fun formatted =>
  (xPhase (zeroPhase (numberPhase (h, [("Exam_date", formatted)])))).map fun st5 =>
    (reSub (sweepPat exam_date) sweepRepl (metaPhase st5).1, (metaPhase st5).2)

/-! ### Byte-level container model

Containers are byte lists.  All reads in the source are either
`fin.read(n)` after an absolute `fin.seek` (so every read is determined
by the input list and a position), or sequential; `fin.read(n)` returns
*up to* `n` bytes, and a negative argument means "read to the end".
`struct.unpack` raises when handed the wrong number of bytes.  The output
file handle supports `seek`; writing past the current end zero-fills the
gap (POSIX semantics of the underlying file). -/

/-- `fin.read(n)` at absolute position `pos`. -/
def pyRead (input : List Nat) (pos n : Nat) : List Nat := (input.drop pos).take n

/-- `fin.read()` / `fin.read(negative)` at absolute position `pos`. -/
def pyReadAllFrom (input : List Nat) (pos : Nat) : List Nat := input.drop pos

/-- Little-endian value of a byte list (`struct` `I`/`Q` fields). -/
def leVal (bs : List Nat) : Nat := bs.foldr (fun b acc => b + 256 * acc) 0

/-- `struct.pack("I", n)` for `n < 2^32`. -/
def pack32 (n : Nat) : List Nat :=
  [n % 256, n / 256 % 256, n / 65536 % 256, n / 16777216 % 256]

/-- `struct.pack("Q", n)` for `n < 2^64`. -/
def pack64 (n : Nat) : List Nat :=
  [n % 256, n / 256 % 256, n / 65536 % 256, n / 16777216 % 256,
   n / 4294967296 % 256, n / 1099511627776 % 256,
   n / 281474976710656 % 256, n / 72057594037927936 % 256]

/-- The output file: contents as a function on byte indices (meaningful
below `size`), plus the write position. -/
structure OutFile where
  data : Nat → Nat
  size : Nat
  pos : Nat

/-- A freshly created (empty) output file. -/
def OutFile.empty : OutFile := ⟨fun _ => 0, 0, 0⟩

/-- `fout.write(bs)`: overwrite/extend at the current position; a seek
past the end followed by a write zero-fills the gap. -/
def owrite (o : OutFile) (bs : List Nat) : OutFile :=
  { data := fun j =>
      if o.pos ≤ j ∧ j < o.pos + bs.length then bs.getD (j - o.pos) 0
      else if j < o.size then o.data j else 0,
    size := max o.size (o.pos + bs.length),
    pos := o.pos + bs.length }

/-- `fout.seek(p)`. -/
def oseek (o : OutFile) (p : Nat) : OutFile := { o with pos := p }

/-- The bytes on disk for an `OutFile`. -/
def renderOut (o : OutFile) : List Nat := (List.range o.size).map o.data

/-- `bytes.decode("latin-1")`: one character per byte. -/
def latin1Decode (bs : List Nat) : List Char := bs.map Char.ofNat

/-- `str.encode("latin-1")`: one byte per character. -/
def latin1Encode (cs : List Char) : List Nat := cs.map Char.toNat

/-- One iteration of the `anonymize_twix_vd` measurement loop: read the
152-byte table entry at `8 + 152 i`, seek to its `offset`, read
`header_size` and the header body, redact the text part, and (unless
`meta_only`) rewrite the table entry (patient name ↦ 64 `x` bytes),
the header block and the payload.  `struct.unpack` failures and redactor
failures raise, modelled as `.error`. -/
def measStep (input : List Nat) (meta_only : Bool) (i : Nat) (fout : OutFile) :
    Except Unit (OutFile × Matches) :=
  let entry := pyRead input (8 + 152 * i) 152
  if entry.length = 152 then
    let meas_id := leVal (entry.take 4)
    let file_id := leVal ((entry.drop 4).take 4)
    let offset := leVal ((entry.drop 8).take 8)
    let length := leVal ((entry.drop 16).take 8)
    let protocol_name := (entry.drop 88).take 64
    let hsB := pyRead input offset 4
    if hsB.length = 4 then
      let header_size := leVal hsB
      let pos1 := min (offset + 4) input.length
      let header :=
        if 4 ≤ header_size then pyRead input pos1 (header_size - 4)
        else pyReadAllFrom input pos1
      let pos2 :=
        if 4 ≤ header_size then min (pos1 + (header_size - 4)) input.length
        else input.length
      match anonymize_twix_header (latin1Decode (pyDropLastN 24 header)) with
      | none => .error ()
      | some (anonymized_header, ms) =>
        if meta_only then .ok (fout, ms)
        else
          let fout := oseek fout (8 + 152 * i)
          let fout := owrite fout
            (pack32 meas_id ++ pack32 file_id ++ pack64 offset ++
             pack64 length ++ List.replicate 64 120 ++ protocol_name)
          let fout := oseek fout offset
          let fout := owrite fout (pack32 header_size)
          let fout := owrite fout (latin1Encode anonymized_header)
          let fout := owrite fout (pyTakeLastN 24 header)
          let payload :=
            if header_size ≤ length then pyRead input pos2 (length - header_size)
            else pyReadAllFrom input pos2
          let fout := owrite fout payload
          .ok (fout, ms)
    else .error ()
  else .error ()

/-- The `for i in range(num_measurements)` loop: `k` measurements remain,
the next index is `i`; `last` is the `matches` variable, unassigned
(`none`) until the first iteration completes.  Falling off the loop end
with `matches` unassigned is Python's `NameError` at the `return`,
modelled as `.error`. -/
def vdLoop (input : List Nat) (meta_only : Bool) :
    Nat → Nat → OutFile → Option Matches → Except Unit Matches × OutFile
  | 0, _, fout, last =>
    (match last with
     | some m => .ok m
     | none => .error (), fout)
  | k + 1, i, fout, _last =>
    match measStep input meta_only i fout with
    | .error _ => (.error (), fout)
    | .ok (fout2, m) => vdLoop input meta_only k (i + 1) fout2 (some m)

/-- `TwixAnonymizer.anonymize_twix_vd` (the `fout.name` part of the
Python return value is output-identity plumbing and is not modelled). -/
def anonymize_twix_vd (input : List Nat) (fout : OutFile) (meta_only : Bool) :
    Except Unit Matches × OutFile :=
  let sig := pyRead input 0 8
  if sig.length = 8 then
    let twix_id := leVal (sig.take 4)
    let num_measurements := leVal (sig.drop 4)
    let fout :=
      if meta_only then fout
      else owrite fout (pack32 twix_id ++ pack32 num_measurements)
    vdLoop input meta_only num_measurements 0 fout none
  else (.error (), fout)

/-- `TwixAnonymizer.anonymize_twix_vb`: single implicit measurement whose
header starts at byte 0; after the rewritten header the remainder of the
input is copied verbatim. -/
def anonymize_twix_vb (input : List Nat) (fout : OutFile) (meta_only : Bool) :
    Except Unit Matches × OutFile :=
  let hsB := pyRead input 0 4
  if hsB.length = 4 then
    let header_size := leVal hsB
    let pos1 := min 4 input.length
    let header :=
      if 4 ≤ header_size then pyRead input pos1 (header_size - 4)
      else pyReadAllFrom input pos1
    let pos2 :=
      if 4 ≤ header_size then min (pos1 + (header_size - 4)) input.length
      else input.length
    match anonymize_twix_header (latin1Decode (pyDropLastN 24 header)) with
    | none => (.error (), fout)
    | some (anonymized_header, ms) =>
      if meta_only then (.ok ms, fout)
      else
        let fout := owrite fout (pack32 header_size)
        let fout := owrite fout (latin1Encode anonymized_header)
        let fout := owrite fout (pyTakeLastN 24 header)
        let fout := owrite fout (pyReadAllFrom input pos2)
        (.ok ms, fout)
  else (.error (), fout)

/-- `TwixAnonymizer.read_and_anonymize`, with its effect on the disk: the
returned pair is (processing result, container file left on disk).  The
output file is created *after* the 8-byte signature read, so a truncated
signature leaves no file; any later failure propagates out of the `with`
block with the partially-written file still on disk; in `meta_only` mode
the file is removed after a successful run. -/
def read_and_anonymize (input : List Nat) (meta_only : Bool) :
    Except Unit Matches × Option (List Nat) :=
  if (pyRead input 0 8).length = 8 then
    let first_uint := leVal (input.take 4)
    let second_uint := leVal ((input.drop 4).take 4)
    let result :=
      if first_uint = 0 ∧ second_uint ≤ 64 then
        anonymize_twix_vd input OutFile.empty meta_only
      else
        anonymize_twix_vb input OutFile.empty meta_only
    match result with
    | (.error e, fout) => (.error e, some (renderOut fout))
    | (.ok m, fout) =>
      if meta_only then (.ok m, none) else (.ok m, some (renderOut fout))
  else (.error (), none)


/-! ### The reads of `anonymize_twix_vd`, as functions of the raw input -/

def tblEntry (input : List Nat) (i : Nat) : List Nat := pyRead input (8 + 152 * i) 152

def measOffset (input : List Nat) (i : Nat) : Nat :=
  leVal (((tblEntry input i).drop 8).take 8)

def measLen (input : List Nat) (i : Nat) : Nat :=
  leVal (((tblEntry input i).drop 16).take 8)

def measHS (input : List Nat) (i : Nat) : Nat :=
  leVal (pyRead input (measOffset input i) 4)

def measHdr (input : List Nat) (i : Nat) : List Nat :=
  pyRead input (measOffset input i + 4) (measHS input i - 4)

def anonEntry (input : List Nat) (i : Nat) : List Nat :=
  (tblEntry input i).take 24 ++ List.replicate 64 120 ++ ((tblEntry input i).drop 88).take 64

def anonBlockOf (input : List Nat) (i : Nat) : List Nat :=
  ((anonymize_twix_header (latin1Decode (pyDropLastN 24 (measHdr input i)))).map
    (fun p =>
      pyRead input (measOffset input i) 4 ++ latin1Encode p.1 ++
      pyTakeLastN 24 (measHdr input i) ++
      pyRead input (measOffset input i + measHS input i)
        (measLen input i - measHS input i))).getD []

def blockStart (input : List Nat) (N : Nat) : Nat → Nat
  | 0 => 8 + 152 * N
  | i + 1 => blockStart input N i + measLen input i



/-- Structural decidable equality for `Except` results. -/
instance exceptDecEq {e a : Type} [DecidableEq e] [DecidableEq a] :
    DecidableEq (Except e a)
  | .ok x, .ok y =>
    if h : x = y then .isTrue (by rw [h]) else .isFalse (fun hc => h (Except.ok.inj hc))
  | .ok _, .error _ => .isFalse (fun hc => Except.noConfusion hc)
  | .error _, .ok _ => .isFalse (fun hc => Except.noConfusion hc)
  | .error x, .error y =>
    if h : x = y then .isTrue (by rw [h])
    else .isFalse (fun hc => h (Except.error.inj hc))

/-! ### Concrete test data (validated against the source program) -/

def hdrMain : List Char := ("<ParamString.\"PatientID\">  \x7b \"PAT1234\" \x7d\n<ParamString.\"FrameOfReference\">  \x7b \"1.3.12.2.1107.5.2.19.45420.99.30230615095059.0\"  \x7d\n<ParamString.\"tPatientsName\">  \x7b \"Doe_John\" \x7d\n<ParamString.\"InstitutionAddress\">  \x7b \"Street 1\" \x7d\n<ParamString.\"InstitutionName\">  \x7b \"UK Essen\" \x7d\n<ParamLong.\"lPatientSex\">  \x7b <Visible> \"true\"  1 \x7d\n<ParamString.\"PatientBirthDay\">  \x7b \"19800115\" \x7d\n<ParamDouble.\"flPatientAge\">  \x7b <Precision> 6  43.250000 \x7d\n<ParamString.\"Landmark\">  \x7b \"LM_A230615\" \x7d\n<ParamString.\"ExamUID\">  \x7b \"1.23.230615.88\" \x7d\n<ParamLong.\"NSlc\">  \x7b 25 \x7d\n" : String).toList

def outMain : List Char := ("<ParamString.\"PatientID\">  \x7b \"0000000\" \x7d\n<ParamString.\"FrameOfReference\">  \x7b \"0000000000000000000000000000000000000000000000\"  \x7d\n<ParamString.\"tPatientsName\">  \x7b \"xxxxxxxx\" \x7d\n<ParamString.\"InstitutionAddress\">  \x7b \"xxxxxxxx\" \x7d\n<ParamString.\"InstitutionName\">  \x7b \"xxxxxxxx\" \x7d\n<ParamLong.\"lPatientSex\">  \x7b <Visible> \"true\"  0 \x7d\n<ParamString.\"PatientBirthDay\">  \x7b \"00000000\" \x7d\n<ParamDouble.\"flPatientAge\">  \x7b <Precision> 6  00.000000 \x7d\n<ParamString.\"Landmark\">  \x7b \"LM_A230615\" \x7d\n<ParamString.\"ExamUID\">  \x7b \"x.xx.xxxxxx.xx\" \x7d\n<ParamLong.\"NSlc\">  \x7b 25 \x7d\n" : String).toList

def msMain : Matches :=
  [("Exam_date", ("2023-06-15" : String).toList),
   ("Patient_id", ("PAT1234" : String).toList),
   ("FrameOfReference", ("1.3.12.2.1107.5.2.19.45420.99.30230615095059.0" : String).toList),
   ("Patient_gender", ("1" : String).toList),
   ("Patient_age", ("43.250000" : String).toList),
   ("Patient_birthday", ("19800115" : String).toList),
   ("Patient_name", ("Doe_John" : String).toList),
   ("InstitutionAddress", ("Street 1" : String).toList),
   ("InstitutionName", ("UK Essen" : String).toList),
   ("NSlc", ("25" : String).toList)]

def capsMain : Caps :=
  [(3, ("  \x7d\n" : String).toList),
   (2, ("\"1.3.12.2.1107.5.2.19.45420.99.30230615095059.0\"" : String).toList),
   (1, ("<ParamString.\"FrameOfReference\">  \x7b " : String).toList)]

def capsOut : Caps :=
  [(3, ("  \x7d\n" : String).toList),
   (2, '"' :: (List.replicate 46 '0' ++ ['"'])),
   (1, ("<ParamString.\"FrameOfReference\">  \x7b " : String).toList)]

def hdrB : List Char := ("<ParamString.\"FrameOfReference\">  \x7b \"1.3.12.2.1107.5.2.19.45420.99.30690615095059.0\"  \x7d\n<ParamString.\"tPatientsName\">  \x7b \"Doe_Jane\" \x7d\n<ParamString.\"InstitutionAddress\">  \x7b \"Street 2\" \x7d\n<ParamString.\"InstitutionName\">  \x7b \"Clinic B\" \x7d\n" : String).toList

def hdrC6 : List Char := ("<ParamString.\"FrameOfReference\">  \x7b \"1.3.12.2.1107.5.2.19.45420.99.30230615095059.0\"  \x7d\n<ParamString.\"InstitutionAddress\">  \x7b \"Street 3\" \x7d\n<ParamString.\"InstitutionName\">  \x7b \"Clinic C\" \x7d\n" : String).toList

def capsPID : Caps :=
  [(3, ("\" \x7d\n" : String).toList),
   (2, ("PAT1234" : String).toList),
   (1, ("<ParamString.\"PatientID\">  \x7b \"" : String).toList)]

def capsPN : Caps :=
  [(4, ("\" \x7d\n" : String).toList),
   (3, ("Doe" : String).toList),
   (1, ("<ParamString.\"tPatientsName\">  \x7b \"" : String).toList)]

def contA : List Nat := [0, 0, 0, 0, 2, 0, 0, 0, 1, 0, 0, 0, 11, 0, 0, 0, 56, 1, 0, 0, 0, 0, 0, 0, 228, 0, 0, 0, 0, 0, 0, 0, 80, 65, 84, 73, 69, 78, 84, 48, 0, 0, 0, 0, 0, 0, 0, 0, 0, 0, 0, 0, 0, 0, 0, 0, 0, 0, 0, 0, 0, 0, 0, 0, 0, 0, 0, 0, 0, 0, 0, 0, 0, 0, 0, 0, 0, 0, 0, 0, 0, 0, 0, 0, 0, 0, 0, 0, 0, 0, 0, 0, 0, 0, 0, 0, 80, 82, 79, 84, 79, 48, 46, 46, 46, 46, 46, 46, 46, 46, 46, 46, 46, 46, 46, 46, 46, 46, 46, 46, 46, 46, 46, 46, 46, 46, 46, 46, 46, 46, 46, 46, 46, 46, 46, 46, 46, 46, 46, 46, 46, 46, 46, 46, 46, 46, 46, 46, 46, 46, 46, 46, 46, 46, 46, 46, 46, 46, 46, 46, 2, 0, 0, 0, 22, 0, 0, 0, 28, 2, 0, 0, 0, 0, 0, 0, 225, 0, 0, 0, 0, 0, 0, 0, 80, 65, 84, 73, 69, 78, 84, 49, 0, 0, 0, 0, 0, 0, 0, 0, 0, 0, 0, 0, 0, 0, 0, 0, 0, 0, 0, 0, 0, 0, 0, 0, 0, 0, 0, 0, 0, 0, 0, 0, 0, 0, 0, 0, 0, 0, 0, 0, 0, 0, 0, 0, 0, 0, 0, 0, 0, 0, 0, 0, 0, 0, 0, 0, 80, 82, 79, 84, 79, 49, 46, 46, 46, 46, 46, 46, 46, 46, 46, 46, 46, 46, 46, 46, 46, 46, 46, 46, 46, 46, 46, 46, 46, 46, 46, 46, 46, 46, 46, 46, 46, 46, 46, 46, 46, 46, 46, 46, 46, 46, 46, 46, 46, 46, 46, 46, 46, 46, 46, 46, 46, 46, 46, 46, 46, 46, 46, 46, 225, 0, 0, 0, 60, 80, 97, 114, 97, 109, 83, 116, 114, 105, 110, 103, 46, 34, 70, 114, 97, 109, 101, 79, 102, 82, 101, 102, 101, 114, 101, 110, 99, 101, 34, 62, 32, 32, 123, 32, 34, 97, 46, 98, 46, 99, 46, 100, 46, 101, 46, 102, 46, 103, 46, 104, 46, 105, 46, 106, 46, 120, 120, 50, 51, 48, 54, 49, 53, 34, 32, 32, 125, 10, 60, 80, 97, 114, 97, 109, 83, 116, 114, 105, 110, 103, 46, 34, 116, 80, 97, 116, 105, 101, 110, 116, 115, 78, 97, 109, 101, 34, 62, 32, 32, 123, 32, 34, 74, 68, 34, 32, 125, 10, 60, 80, 97, 114, 97, 109, 83, 116, 114, 105, 110, 103, 46, 34, 73, 110, 115, 116, 105, 116, 117, 116, 105, 111, 110, 65, 100, 100, 114, 101, 115, 115, 34, 62, 32, 32, 123, 32, 34, 65, 49, 34, 32, 125, 10, 60, 80, 97, 114, 97, 109, 83, 116, 114, 105, 110, 103, 46, 34, 73, 110, 115, 116, 105, 116, 117, 116, 105, 111, 110, 78, 97, 109, 101, 34, 62, 32, 32, 123, 32, 34, 66, 50, 34, 32, 125, 10, 100, 101, 102, 103, 104, 105, 106, 107, 108, 109, 110, 111, 112, 113, 114, 115, 116, 117, 118, 119, 120, 121, 122, 123, 85, 102, 119, 225, 0, 0, 0, 60, 80, 97, 114, 97, 109, 83, 116, 114, 105, 110, 103, 46, 34, 70, 114, 97, 109, 101, 79, 102, 82, 101, 102, 101, 114, 101, 110, 99, 101, 34, 62, 32, 32, 123, 32, 34, 97, 46, 98, 46, 99, 46, 100, 46, 101, 46, 102, 46, 103, 46, 104, 46, 105, 46, 106, 46, 120, 120, 50, 51, 48, 54, 49, 53, 34, 32, 32, 125, 10, 60, 80, 97, 114, 97, 109, 83, 116, 114, 105, 110, 103, 46, 34, 116, 80, 97, 116, 105, 101, 110, 116, 115, 78, 97, 109, 101, 34, 62, 32, 32, 123, 32, 34, 88, 89, 34, 32, 125, 10, 60, 80, 97, 114, 97, 109, 83, 116, 114, 105, 110, 103, 46, 34, 73, 110, 115, 116, 105, 116, 117, 116, 105, 111, 110, 65, 100, 100, 114, 101, 115, 115, 34, 62, 32, 32, 123, 32, 34, 65, 49, 34, 32, 125, 10, 60, 80, 97, 114, 97, 109, 83, 116, 114, 105, 110, 103, 46, 34, 73, 110, 115, 116, 105, 116, 117, 116, 105, 111, 110, 78, 97, 109, 101, 34, 62, 32, 32, 123, 32, 34, 66, 50, 34, 32, 125, 10, 100, 101, 102, 103, 104, 105, 106, 107, 108, 109, 110, 111, 112, 113, 114, 115, 116, 117, 118, 119, 120, 121, 122, 123]

def gapIn : List Nat := [0, 0, 0, 0, 1, 0, 0, 0, 1, 0, 0, 0, 11, 0, 0, 0, 161, 0, 0, 0, 0, 0, 0, 0, 228, 0, 0, 0, 0, 0, 0, 0, 80, 65, 84, 73, 69, 78, 84, 48, 0, 0, 0, 0, 0, 0, 0, 0, 0, 0, 0, 0, 0, 0, 0, 0, 0, 0, 0, 0, 0, 0, 0, 0, 0, 0, 0, 0, 0, 0, 0, 0, 0, 0, 0, 0, 0, 0, 0, 0, 0, 0, 0, 0, 0, 0, 0, 0, 0, 0, 0, 0, 0, 0, 0, 0, 80, 82, 79, 84, 79, 48, 46, 46, 46, 46, 46, 46, 46, 46, 46, 46, 46, 46, 46, 46, 46, 46, 46, 46, 46, 46, 46, 46, 46, 46, 46, 46, 46, 46, 46, 46, 46, 46, 46, 46, 46, 46, 46, 46, 46, 46, 46, 46, 46, 46, 46, 46, 46, 46, 46, 46, 46, 46, 46, 46, 46, 46, 46, 46, 255, 225, 0, 0, 0, 60, 80, 97, 114, 97, 109, 83, 116, 114, 105, 110, 103, 46, 34, 70, 114, 97, 109, 101, 79, 102, 82, 101, 102, 101, 114, 101, 110, 99, 101, 34, 62, 32, 32, 123, 32, 34, 97, 46, 98, 46, 99, 46, 100, 46, 101, 46, 102, 46, 103, 46, 104, 46, 105, 46, 106, 46, 120, 120, 50, 51, 48, 54, 49, 53, 34, 32, 32, 125, 10, 60, 80, 97, 114, 97, 109, 83, 116, 114, 105, 110, 103, 46, 34, 116, 80, 97, 116, 105, 101, 110, 116, 115, 78, 97, 109, 101, 34, 62, 32, 32, 123, 32, 34, 74, 68, 34, 32, 125, 10, 60, 80, 97, 114, 97, 109, 83, 116, 114, 105, 110, 103, 46, 34, 73, 110, 115, 116, 105, 116, 117, 116, 105, 111, 110, 65, 100, 100, 114, 101, 115, 115, 34, 62, 32, 32, 123, 32, 34, 65, 49, 34, 32, 125, 10, 60, 80, 97, 114, 97, 109, 83, 116, 114, 105, 110, 103, 46, 34, 73, 110, 115, 116, 105, 116, 117, 116, 105, 111, 110, 78, 97, 109, 101, 34, 62, 32, 32, 123, 32, 34, 66, 50, 34, 32, 125, 10, 100, 101, 102, 103, 104, 105, 106, 107, 108, 109, 110, 111, 112, 113, 114, 115, 116, 117, 118, 119, 120, 121, 122, 123, 85, 102, 119]

def vbIn : List Nat := [225, 0, 0, 0, 60, 80, 97, 114, 97, 109, 83, 116, 114, 105, 110, 103, 46, 34, 70, 114, 97, 109, 101, 79, 102, 82, 101, 102, 101, 114, 101, 110, 99, 101, 34, 62, 32, 32, 123, 32, 34, 97, 46, 98, 46, 99, 46, 100, 46, 101, 46, 102, 46, 103, 46, 104, 46, 105, 46, 106, 46, 120, 120, 50, 51, 48, 54, 49, 53, 34, 32, 32, 125, 10, 60, 80, 97, 114, 97, 109, 83, 116, 114, 105, 110, 103, 46, 34, 116, 80, 97, 116, 105, 101, 110, 116, 115, 78, 97, 109, 101, 34, 62, 32, 32, 123, 32, 34, 74, 68, 34, 32, 125, 10, 60, 80, 97, 114, 97, 109, 83, 116, 114, 105, 110, 103, 46, 34, 73, 110, 115, 116, 105, 116, 117, 116, 105, 111, 110, 65, 100, 100, 114, 101, 115, 115, 34, 62, 32, 32, 123, 32, 34, 65, 49, 34, 32, 125, 10, 60, 80, 97, 114, 97, 109, 83, 116, 114, 105, 110, 103, 46, 34, 73, 110, 115, 116, 105, 116, 117, 116, 105, 111, 110, 78, 97, 109, 101, 34, 62, 32, 32, 123, 32, 34, 66, 50, 34, 32, 125, 10, 100, 101, 102, 103, 104, 105, 106, 107, 108, 109, 110, 111, 112, 113, 114, 115, 116, 117, 118, 119, 120, 121, 122, 123, 85, 102, 119, 170, 187]

def msA1 : Matches :=
  [("Exam_date", ("2023-06-15" : String).toList),
   ("FrameOfReference", ("a.b.c.d.e.f.g.h.i.j.xx230615" : String).toList),
   ("Patient_name", ("XY" : String).toList),
   ("InstitutionAddress", ("A1" : String).toList),
   ("InstitutionName", ("B2" : String).toList)]

def msJD : Matches :=
  [("Exam_date", ("2023-06-15" : String).toList),
   ("FrameOfReference", ("a.b.c.d.e.f.g.h.i.j.xx230615" : String).toList),
   ("Patient_name", ("JD" : String).toList),
   ("InstitutionAddress", ("A1" : String).toList),
   ("InstitutionName", ("B2" : String).toList)]

def outVB : List Char := ("<ParamString.\"FrameOfReference\">  \x7b \"0000000000000000000000000000\"  \x7d\n<ParamString.\"tPatientsName\">  \x7b \"xx\" \x7d\n<ParamString.\"InstitutionAddress\">  \x7b \"xx\" \x7d\n<ParamString.\"InstitutionName\">  \x7b \"xx\" \x7d\n" : String).toList

/-! ### Soundness of the matcher

`matchRe` only ever calls its continuation on a suffix of the input, with
capture entries for (syntactic) groups of the regex pushed on top of the
environment; a `group` wrapper captures exactly the characters its body
consumed. -/

theorem tryLens_sound {α : Type} {k : List Char → Caps → Option α}
    {s : List Char} {caps : Caps} {n : Nat} {res : α}
    (h : tryLens k s caps n = some res) :
    ∃ m, m ≤ n ∧ k (s.drop m) caps = some res := by
  induction n with
  | zero => exact ⟨0, Nat.le_refl 0, by simpa [tryLens] using h⟩
  | succ n ih =>
    rw [tryLens] at h
    cases hk : k (s.drop (n + 1)) caps with
    | some r =>
      simp only [hk] at h
      exact ⟨n + 1, Nat.le_refl _, hk.trans h⟩
    | none =>
      simp only [hk] at h
      obtain ⟨m, hm, hk2⟩ := ih h
      exact ⟨m, Nat.le_succ_of_le hm, hk2⟩

theorem matchRe_sound {α : Type} (r : Re) :
    ∀ {s : List Char} {caps : Caps} {k : List Char → Caps → Option α} {res : α},
      matchRe r s caps k = some res →
      ∃ n adds, n ≤ s.length ∧ (∀ e ∈ adds, e.1 ∈ reGroups r) ∧
        k (s.drop n) (adds ++ caps) = some res := by
  induction r with
  | lit cs =>
    intro s caps k res h
    rw [matchRe] at h
    split at h
    · rename_i hpre
      exact ⟨cs.length, [],
        List.IsPrefix.length_le (List.isPrefixOf_iff_prefix.mp hpre),
        by simp, h⟩
    · exact absurd h (by simp)
  | cls p =>
    intro s caps k res h
    cases s with
    | nil => rw [matchRe] at h; exact absurd h (by simp)
    | cons c rest =>
      rw [matchRe] at h
      split at h
      · exact ⟨1, [], by simp, by simp, h⟩
      · exact absurd h (by simp)
  | star p =>
    intro s caps k res h
    rw [matchRe] at h
    obtain ⟨m, hm, hk⟩ := tryLens_sound h
    exact ⟨m, [],
      Nat.le_trans hm (List.IsPrefix.length_le (List.takeWhile_prefix p)),
      by simp, hk⟩
  | plus p =>
    intro s caps k res h
    cases s with
    | nil => rw [matchRe] at h; exact absurd h (by simp)
    | cons c rest =>
      rw [matchRe] at h
      split at h
      · obtain ⟨m, hm, hk⟩ := tryLens_sound h
        refine ⟨m + 1, [], ?_, by simp, hk⟩
        have := List.IsPrefix.length_le (List.takeWhile_prefix (l := rest) p)
        simp only [List.length_cons]
        omega
      · exact absurd h (by simp)
  | rep p n =>
    intro s caps k res h
    rw [matchRe] at h
    split at h
    · rename_i hc
      refine ⟨n, [], ?_, by simp, h⟩
      have := hc.1
      simp only [List.length_take] at this
      omega
    · exact absurd h (by simp)
  | opt r ih =>
    intro s caps k res h
    rw [matchRe] at h
    cases hm : matchRe r s caps k with
    | some r2 =>
      simp only [hm] at h
      obtain ⟨n, adds, hn, hg, hk⟩ := ih (hm.trans h)
      exact ⟨n, adds, hn, hg, hk⟩
    | none =>
      simp only [hm] at h
      exact ⟨0, [], by simp, by simp, h⟩
  | cat r1 r2 ih1 ih2 =>
    intro s caps k res h
    rw [matchRe] at h
    obtain ⟨n1, a1, hn1, hg1, h1⟩ := ih1 h
    obtain ⟨n2, a2, hn2, hg2, h2⟩ := ih2 h1
    refine ⟨n1 + n2, a2 ++ a1, ?_, ?_, ?_⟩
    · rw [List.length_drop] at hn2; omega
    · intro e he
      rcases List.mem_append.mp he with h' | h'
      · exact List.mem_append_right _ (hg2 e h')
      · exact List.mem_append_left _ (hg1 e h')
    · have h3 : k ((s.drop n1).drop n2) ((a2 ++ a1) ++ caps) = some res := by
        rw [List.append_assoc]; exact h2
      rwa [List.drop_drop] at h3
  | group g r ih =>
    intro s caps k res h
    rw [matchRe] at h
    obtain ⟨n, adds, hn, hg, hk⟩ := ih h
    have hk2 : k (s.drop n)
        ((g, s.take (s.length - (s.drop n).length)) :: (adds ++ caps)) = some res := hk
    rw [List.length_drop, Nat.sub_sub_self hn] at hk2
    refine ⟨n, (g, s.take n) :: adds, hn, ?_, hk2⟩
    intro e he
    rcases List.mem_cons.mp he with h' | h'
    · rw [h']; exact List.mem_cons_self _ _
    · exact List.mem_cons_of_mem _ (hg e h')

/-- Unfolding step for a top-level capture group. -/
theorem group_step {α : Type} {g : Nat} {r : Re} {s : List Char} {caps : Caps}
    {k : List Char → Caps → Option α} {res : α}
    (h : matchRe (.group g r) s caps k = some res) :
    ∃ n adds, n ≤ s.length ∧ (∀ e ∈ adds, e.1 ∈ reGroups r) ∧
      k (s.drop n) ((g, s.take n) :: (adds ++ caps)) = some res := by
  rw [matchRe] at h
  obtain ⟨n, adds, hn, hg, hk⟩ := matchRe_sound r h
  have hk2 : k (s.drop n)
      ((g, s.take (s.length - (s.drop n).length)) :: (adds ++ caps)) = some res := hk
  rw [List.length_drop, Nat.sub_sub_self hn] at hk2
  exact ⟨n, adds, hn, hg, hk2⟩

/-- Unfolding step for a concatenation whose head is a capture group. -/
theorem cat_group_step {α : Type} {g : Nat} {r rest : Re} {s : List Char}
    {caps : Caps} {k : List Char → Caps → Option α} {res : α}
    (h : matchRe (.cat (.group g r) rest) s caps k = some res) :
    ∃ n adds, n ≤ s.length ∧ (∀ e ∈ adds, e.1 ∈ reGroups r) ∧
      matchRe rest (s.drop n) ((g, s.take n) :: (adds ++ caps)) k = some res := by
  rw [matchRe] at h
  obtain ⟨n, adds, hn, hg, hk⟩ := group_step h
  exact ⟨n, adds, hn, hg, hk⟩

theorem matchAt_le {r : Re} {s : List Char} {len : Nat} {caps : Caps}
    (h : matchAt r s = some (len, caps)) : len ≤ s.length := by
  unfold matchAt at h
  obtain ⟨n, adds, hn, _, hk⟩ := matchRe_sound r h
  have hk2 : (some (s.length - (s.drop n).length, adds ++ []) : Option (Nat × Caps))
      = some (len, caps) := hk
  rw [List.length_drop] at hk2
  have hp := Option.some.inj hk2
  have hlen : s.length - (s.length - n) = len := congrArg Prod.fst hp
  omega

/-- An anchored match of the `(prefix)(value)(suffix)` shape `pat3`
consumes exactly the concatenation of its three captures (the value and
suffix sub-regexes are group-free). -/
theorem matchAt_pat3 {A B C : Re} (hB : reGroups B = []) (hC : reGroups C = [])
    {s : List Char} {len : Nat} {caps : Caps}
    (h : matchAt (pat3 A B C) s = some (len, caps)) :
    ∃ n1 n2 n3, len = n1 + n2 + n3 ∧ len ≤ s.length ∧
      capGroup caps 1 = some (s.take n1) ∧
      capGroup caps 2 = some ((s.drop n1).take n2) ∧
      capGroup caps 3 = some ((s.drop (n1 + n2)).take n3) ∧
      s.take len = s.take n1 ++ (s.drop n1).take n2 ++ (s.drop (n1 + n2)).take n3 := by
  unfold matchAt pat3 at h
  obtain ⟨n1, a1, hn1, _, h1⟩ := cat_group_step h
  obtain ⟨n2, a2, hn2, hg2, h2⟩ := cat_group_step h1
  have ha2 : a2 = [] := by
    cases a2 with
    | nil => rfl
    | cons e t => exact absurd (hg2 e (List.mem_cons_self e t)) (by simp [hB])
  subst ha2
  obtain ⟨n3, a3, hn3, hg3, h3⟩ := group_step h2
  have ha3 : a3 = [] := by
    cases a3 with
    | nil => rfl
    | cons e t => exact absurd (hg3 e (List.mem_cons_self e t)) (by simp [hC])
  subst ha3
  have h4 : (some (s.length - (((s.drop n1).drop n2).drop n3).length,
      (3, ((s.drop n1).drop n2).take n3) ::
        ([] ++ ((2, (s.drop n1).take n2) ::
          ([] ++ ((1, s.take n1) :: (a1 ++ [])))))) : Option (Nat × Caps))
      = some (len, caps) := h3
  simp only [List.nil_append, List.append_nil, List.length_drop] at h4
  rw [List.length_drop] at hn2
  rw [List.length_drop, List.length_drop] at hn3
  have hp := Option.some.inj h4
  have hlen : s.length - (s.length - n1 - n2 - n3) = len := congrArg Prod.fst hp
  have hcaps : ((3, ((s.drop n1).drop n2).take n3) :: (2, (s.drop n1).take n2) ::
      (1, s.take n1) :: a1 : Caps) = caps := congrArg Prod.snd hp
  have hdd : (s.drop n1).drop n2 = s.drop (n1 + n2) := by
    rw [List.drop_drop]
  rw [hdd] at hcaps
  have hlen2 : len = n1 + n2 + n3 := by omega
  subst hcaps
  refine ⟨n1, n2, n3, hlen2, by omega, ?_, ?_, ?_, ?_⟩
  · simp [capGroup, List.lookup]
  · simp [capGroup, List.lookup]
  · simp [capGroup, List.lookup]
  · rw [hlen2, List.take_add, List.take_add, List.append_assoc]

/-- An anchored match of the `pat4` shape (groups 1, 3, 4 at top level,
any groups inside group 1) consumes exactly the concatenation of the
captures of groups 1, 3 and 4. -/
theorem matchAt_pat4 {A B C : Re} (hB : reGroups B = []) (hC : reGroups C = [])
    {s : List Char} {len : Nat} {caps : Caps}
    (h : matchAt (pat4 A B C) s = some (len, caps)) :
    ∃ n1 n2 n3, len = n1 + n2 + n3 ∧ len ≤ s.length ∧
      capGroup caps 1 = some (s.take n1) ∧
      capGroup caps 3 = some ((s.drop n1).take n2) ∧
      capGroup caps 4 = some ((s.drop (n1 + n2)).take n3) ∧
      s.take len = s.take n1 ++ (s.drop n1).take n2 ++ (s.drop (n1 + n2)).take n3 := by
  unfold matchAt pat4 at h
  obtain ⟨n1, a1, hn1, _, h1⟩ := cat_group_step h
  obtain ⟨n2, a2, hn2, hg2, h2⟩ := cat_group_step h1
  have ha2 : a2 = [] := by
    cases a2 with
    | nil => rfl
    | cons e t => exact absurd (hg2 e (List.mem_cons_self e t)) (by simp [hB])
  subst ha2
  obtain ⟨n3, a3, hn3, hg3, h3⟩ := group_step h2
  have ha3 : a3 = [] := by
    cases a3 with
    | nil => rfl
    | cons e t => exact absurd (hg3 e (List.mem_cons_self e t)) (by simp [hC])
  subst ha3
  have h4 : (some (s.length - (((s.drop n1).drop n2).drop n3).length,
      (4, ((s.drop n1).drop n2).take n3) ::
        ([] ++ ((3, (s.drop n1).take n2) ::
          ([] ++ ((1, s.take n1) :: (a1 ++ [])))))) : Option (Nat × Caps))
      = some (len, caps) := h3
  simp only [List.nil_append, List.append_nil, List.length_drop] at h4
  rw [List.length_drop] at hn2
  rw [List.length_drop, List.length_drop] at hn3
  have hp := Option.some.inj h4
  have hlen : s.length - (s.length - n1 - n2 - n3) = len := congrArg Prod.fst hp
  have hcaps : ((4, ((s.drop n1).drop n2).take n3) :: (3, (s.drop n1).take n2) ::
      (1, s.take n1) :: a1 : Caps) = caps := congrArg Prod.snd hp
  have hdd : (s.drop n1).drop n2 = s.drop (n1 + n2) := by
    rw [List.drop_drop]
  rw [hdd] at hcaps
  have hlen2 : len = n1 + n2 + n3 := by omega
  subst hcaps
  refine ⟨n1, n2, n3, hlen2, by omega, ?_, ?_, ?_, ?_⟩
  · simp [capGroup, List.lookup]
  · simp [capGroup, List.lookup]
  · simp [capGroup, List.lookup]
  · rw [hlen2, List.take_add, List.take_add, List.append_assoc]

/-! ### Length preservation of the redaction passes -/

/-- The `(prefix)(value)(suffix)` catalog shape. -/
def IsPat3 (r : Re) : Prop :=
  ∃ A B C, r = pat3 A B C ∧ reGroups B = [] ∧ reGroups C = []

/-- The catalog shape with groups 1, 3, 4 (optional group 2 inside 1). -/
def IsPat4 (r : Re) : Prop :=
  ∃ A B C, r = pat4 A B C ∧ reGroups B = [] ∧ reGroups C = []

theorem number_buffer_shape : ∀ kp ∈ number_buffer, IsPat3 kp.2 := by
  intro kp hkp
  fin_cases hkp <;> exact ⟨_, _, _, rfl, rfl, rfl⟩

theorem meta_buffer_shape : ∀ kp ∈ meta_buffer, IsPat3 kp.2 := by
  intro kp hkp
  fin_cases hkp <;> exact ⟨_, _, _, rfl, rfl, rfl⟩

theorem zero_buffer_shape : ∀ kp ∈ zero_buffer, IsPat4 kp.2 := by
  intro kp hkp
  fin_cases hkp <;> exact ⟨_, _, _, rfl, rfl, rfl⟩

theorem x_buffer_shape : ∀ kp ∈ x_buffer, IsPat4 kp.2 := by
  intro kp hkp
  fin_cases hkp <;> exact ⟨_, _, _, rfl, rfl, rfl⟩

theorem xPatientNamePat_shape : IsPat4 xPatientNamePat := by
  refine ⟨_, _, _, rfl, ?_, ?_⟩ <;> rfl

theorem xInstitutionAddressPat_shape : IsPat4 xInstitutionAddressPat := by
  refine ⟨_, _, _, rfl, ?_, ?_⟩ <;> rfl

theorem xInstitutionNamePat_shape : IsPat4 xInstitutionNamePat := by
  refine ⟨_, _, _, rfl, ?_, ?_⟩ <;> rfl

/-- The `number_buffer` replacement has the length of the matched text. -/
theorem numberRepl_length {pat : Re} (hp : IsPat3 pat) {t : List Char}
    {len : Nat} {caps : Caps} (h : matchAt pat t = some (len, caps)) :
    (numberRepl caps (t.take len)).length = len := by
  obtain ⟨A, B, C, rfl, hB, hC⟩ := hp
  obtain ⟨n1, n2, n3, hlen, hle, h1, h2, h3, _⟩ := matchAt_pat3 hB hC h
  simp only [numberRepl, h1, h2, h3, Option.getD_some, List.length_append,
    List.length_replicate, List.length_take, List.length_drop]
  omega

/-- The `zero_buffer` replacement has the length of the matched text. -/
theorem zeroRepl_length {pat : Re} (hp : IsPat4 pat) {t : List Char}
    {len : Nat} {caps : Caps} (h : matchAt pat t = some (len, caps)) :
    (zeroRepl caps (t.take len)).length = len := by
  obtain ⟨A, B, C, rfl, hB, hC⟩ := hp
  obtain ⟨n1, n2, n3, hlen, hle, h1, h2, h3, _⟩ := matchAt_pat4 hB hC h
  simp only [zeroRepl, h1, h2, h3, Option.getD_some, List.length_append,
    List.length_map, List.length_take, List.length_drop]
  omega

/-- The `x_buffer` replacement has the length of the matched text. -/
theorem xRepl_length {pat : Re} (hp : IsPat4 pat) {t : List Char}
    {len : Nat} {caps : Caps} (h : matchAt pat t = some (len, caps)) :
    (xRepl caps (t.take len)).length = len := by
  obtain ⟨A, B, C, rfl, hB, hC⟩ := hp
  obtain ⟨n1, n2, n3, hlen, hle, h1, h2, h3, _⟩ := matchAt_pat4 hB hC h
  simp only [xRepl, h1, h2, h3, Option.getD_some, List.length_append,
    List.length_replicate, List.length_take, List.length_drop]
  omega

/-- The sweep replacement has the length of the matched text. -/
theorem sweepRepl_length {r : Re} {t : List Char} {len : Nat} {caps : Caps}
    (h : matchAt r t = some (len, caps)) :
    (sweepRepl caps (t.take len)).length = len := by
  have := matchAt_le h
  simp only [sweepRepl, List.length_map, List.length_take]
  omega

/-- `re.sub` with a per-match length-preserving replacement function
preserves the total length. -/
theorem reSubF_length {r : Re} {f : Caps → List Char → List Char}
    (hf : ∀ (t : List Char) (len : Nat) (caps : Caps),
      matchAt r t = some (len, caps) → (f caps (t.take len)).length = len) :
    ∀ (fuel : Nat) (s : List Char), s.length ≤ fuel →
      (reSubF r f fuel s).length = s.length := by
  intro fuel
  induction fuel with
  | zero =>
    intro s hs
    match s with
    | [] =>
      rw [reSubF]
      cases hm : matchAt r [] with
      | none => simp
      | some x =>
        obtain ⟨len, caps⟩ := x
        have hz : len = 0 := Nat.le_zero.mp (matchAt_le hm)
        subst hz
        simp only [hm]
        exact hf [] 0 caps hm
  | succ fuel ih =>
    intro s hs
    match s with
    | [] =>
      rw [reSubF]
      cases hm : matchAt r [] with
      | none => simp
      | some x =>
        obtain ⟨len, caps⟩ := x
        have hz : len = 0 := Nat.le_zero.mp (matchAt_le hm)
        subst hz
        simp only [hm]
        exact hf [] 0 caps hm
    | c :: rest =>
      rw [reSubF]
      cases hm : matchAt r (c :: rest) with
      | none =>
        simp only [hm, List.length_cons]
        rw [ih rest (by simpa using Nat.le_of_succ_le_succ hs)]
      | some x =>
        obtain ⟨len, caps⟩ := x
        simp only [hm]
        by_cases hz : len = 0
        · subst hz
          rw [if_pos rfl]
          have h0 := hf (c :: rest) 0 caps hm
          simp only [List.take_zero] at h0
          simp only [List.length_append, h0, List.length_cons,
            ih rest (by simpa using Nat.le_of_succ_le_succ hs)]
          omega
        · rw [if_neg hz]
          have hle := matchAt_le hm
          have hlen := hf (c :: rest) len caps hm
          simp only [List.length_append, hlen, List.length_drop]
          rw [ih ((c :: rest).drop len) ?_]
          · simp only [List.length_drop, List.length_cons] at *
            omega
          · simp only [List.length_drop, List.length_cons] at *
            omega

/-- `re.sub` with a per-match length-preserving replacement preserves
the string length. -/
theorem reSub_length {r : Re} {f : Caps → List Char → List Char}
    (hf : ∀ (t : List Char) (len : Nat) (caps : Caps),
      matchAt r t = some (len, caps) → (f caps (t.take len)).length = len)
    (s : List Char) : (reSub r f s).length = s.length :=
  reSubF_length hf s.length s (Nat.le_refl _)

theorem numberStep_text_length {st : HState} {key : String} {pat : Re}
    (hp : IsPat3 pat) : ((numberStep st key pat).1).length = st.1.length := by
  unfold numberStep
  cases hs : reSearch pat st.1 with
  | none => rfl
  | some x =>
    obtain ⟨st0, len, caps⟩ := x
    exact reSub_length (fun t len caps h => numberRepl_length hp h) st.1

theorem zeroStep_text_length {st : HState} {key : String} {pat : Re}
    (hp : IsPat4 pat) : ((zeroStep st key pat).1).length = st.1.length := by
  unfold zeroStep
  cases hs : reSearch pat st.1 with
  | none => rfl
  | some x =>
    obtain ⟨st0, len, caps⟩ := x
    exact reSub_length (fun t len caps h => zeroRepl_length hp h) st.1

theorem xStep_text_length {st st2 : HState} {key : String} {pat : Re}
    (hp : IsPat4 pat) (h : xStep st key pat = some st2) :
    st2.1.length = st.1.length := by
  unfold xStep at h
  cases hs : reSearch pat st.1 with
  | none => rw [hs] at h; exact absurd h (by simp)
  | some x =>
    obtain ⟨st0, len, caps⟩ := x
    rw [hs] at h
    simp only [Option.some.injEq] at h
    rw [← h]
    exact reSub_length (fun t len caps h => xRepl_length hp h) st.1

theorem metaStep_text {st : HState} {key : String} {pat : Re} :
    (metaStep st key pat).1 = st.1 := by
  unfold metaStep
  cases reSearch pat st.1 with
  | none => rfl
  | some x => obtain ⟨a, b, c⟩ := x; rfl

theorem numberPhase_text_length (st : HState) :
    ((numberPhase st).1).length = st.1.length := by
  unfold numberPhase
  have : ∀ (l : List (String × Re)) (st : HState), (∀ kp ∈ l, IsPat3 kp.2) →
      ((l.foldl (fun st kp => numberStep st kp.1 kp.2) st).1).length = st.1.length := by
    intro l
    induction l with
    | nil => intro st _; rfl
    | cons kp t ih =>
      intro st hl
      rw [List.foldl_cons]
      rw [ih _ (fun e he => hl e (List.mem_cons_of_mem _ he))]
      exact numberStep_text_length (hl kp (List.mem_cons_self _ _))
  exact this number_buffer st number_buffer_shape

theorem zeroPhase_text_length (st : HState) :
    ((zeroPhase st).1).length = st.1.length := by
  unfold zeroPhase
  have : ∀ (l : List (String × Re)) (st : HState), (∀ kp ∈ l, IsPat4 kp.2) →
      ((l.foldl (fun st kp => zeroStep st kp.1 kp.2) st).1).length = st.1.length := by
    intro l
    induction l with
    | nil => intro st _; rfl
    | cons kp t ih =>
      intro st hl
      rw [List.foldl_cons]
      rw [ih _ (fun e he => hl e (List.mem_cons_of_mem _ he))]
      exact zeroStep_text_length (hl kp (List.mem_cons_self _ _))
  exact this zero_buffer st zero_buffer_shape

theorem metaPhase_text (st : HState) : (metaPhase st).1 = st.1 := by
  unfold metaPhase
  have : ∀ (l : List (String × Re)) (st : HState),
      ((l.foldl (fun st kp => metaStep st kp.1 kp.2) st).1) = st.1 := by
    intro l
    induction l with
    | nil => intro st; rfl
    | cons kp t ih =>
      intro st
      rw [List.foldl_cons, ih, metaStep_text]
  exact this meta_buffer st

theorem xPhase_text_length {st st5 : HState} (h : xPhase st = some st5) :
    st5.1.length = st.1.length := by
  unfold xPhase at h
  simp only [Option.bind_eq_some] at h
  obtain ⟨st3, h1, st4, h2, h3⟩ := h
  have e1 := xStep_text_length xPatientNamePat_shape h1
  have e2 := xStep_text_length xInstitutionAddressPat_shape h2
  have e3 := xStep_text_length xInstitutionNamePat_shape h3
  omega

/-- Redaction never changes the header text length: every per-field
substitution replaces the value group by an equal-length string and
reproduces the prefix/suffix groups, and the final sweep is a
character-by-character map. -/
theorem anonymize_twix_header_length {h out : List Char} {m : Matches}
    (hh : anonymize_twix_header h = some (out, m)) : out.length = h.length := by
  unfold anonymize_twix_header at hh
  simp only [Option.bind_eq_some, Option.map_eq_some'] at hh
  obtain ⟨exam_date, h1, formatted, h2, st5, h3, h4⟩ := hh
  rw [Prod.mk.injEq] at h4
  obtain ⟨hout, hm2⟩ := h4
  rw [← hout]
  rw [reSub_length (fun t len caps hm => sweepRepl_length hm)]
  rw [metaPhase_text]
  rw [xPhase_text_length h3]
  rw [zeroPhase_text_length, numberPhase_text_length]

/-! ### The exam-date computation: `strptime("%y%m%d")` on zero-padded
digit strings -/

theorem digitChar_lt {n : Nat} (h : n < 10) : (digitChar n).toNat = 48 + n := by
  interval_cases n <;> rfl

theorem isDigitChar_digitChar {n : Nat} (h : n < 10) :
    isDigitChar (digitChar n) = true := by
  interval_cases n <;> rfl

theorem digitVal_digitChar {n : Nat} (h : n < 10) : digitVal (digitChar n) = n := by
  interval_cases n <;> rfl

/-- The first `%d` candidate on a two-digit zero-padded day. -/
theorem parseD_pad2 {dd : Nat} (h1 : 1 ≤ dd) (h2 : dd ≤ 31) :
    (parseD (pad2 dd)).head? = some (dd, []) := by
  interval_cases dd <;> decide

theorem strptimeYMD_cons {a b : Nat} (ha : a < 10) (hb : b < 10)
    (rest : List Char) :
    strptimeYMD (digitChar a :: digitChar b :: rest) =
      (match (parseM rest).findSome?
          (fun mc => ((parseD mc.2).head?).map (fun dc => (mc.1, dc.1, dc.2))) with
       | some (m, d, rest3) =>
         if rest3 = [] then some (10 * a + b, m, d) else none
       | none => none) := by
  rw [strptimeYMD]
  rw [digitVal_digitChar ha, digitVal_digitChar hb]
  rw [isDigitChar_digitChar ha, isDigitChar_digitChar hb]
  rfl

/-- The `%m%d` tail of the strptime regex on zero-padded month and day:
the first matching alternative pair wins and consumes everything. -/
theorem parseMD_pad2 {mm dd : Nat} (hm1 : 1 ≤ mm) (hm2 : mm ≤ 12)
    (hd1 : 1 ≤ dd) (hd2 : dd ≤ 31) :
    (parseM (pad2 mm ++ pad2 dd)).findSome?
      (fun mc => ((parseD mc.2).head?).map (fun dc => (mc.1, dc.1, dc.2)))
      = some (mm, dd, []) := by
  have hd := parseD_pad2 hd1 hd2
  interval_cases mm
  · rw [show pad2 1 ++ pad2 dd = '0' :: '1' :: pad2 dd from rfl, parseM,
      if_neg (by decide), if_pos (by decide), if_neg (by decide)]
    simp [hd] <;> decide
  · rw [show pad2 2 ++ pad2 dd = '0' :: '2' :: pad2 dd from rfl, parseM,
      if_neg (by decide), if_pos (by decide), if_neg (by decide)]
    simp [hd] <;> decide
  · rw [show pad2 3 ++ pad2 dd = '0' :: '3' :: pad2 dd from rfl, parseM,
      if_neg (by decide), if_pos (by decide), if_neg (by decide)]
    simp [hd] <;> decide
  · rw [show pad2 4 ++ pad2 dd = '0' :: '4' :: pad2 dd from rfl, parseM,
      if_neg (by decide), if_pos (by decide), if_neg (by decide)]
    simp [hd] <;> decide
  · rw [show pad2 5 ++ pad2 dd = '0' :: '5' :: pad2 dd from rfl, parseM,
      if_neg (by decide), if_pos (by decide), if_neg (by decide)]
    simp [hd] <;> decide
  · rw [show pad2 6 ++ pad2 dd = '0' :: '6' :: pad2 dd from rfl, parseM,
      if_neg (by decide), if_pos (by decide), if_neg (by decide)]
    simp [hd] <;> decide
  · rw [show pad2 7 ++ pad2 dd = '0' :: '7' :: pad2 dd from rfl, parseM,
      if_neg (by decide), if_pos (by decide), if_neg (by decide)]
    simp [hd] <;> decide
  · rw [show pad2 8 ++ pad2 dd = '0' :: '8' :: pad2 dd from rfl, parseM,
      if_neg (by decide), if_pos (by decide), if_neg (by decide)]
    simp [hd] <;> decide
  · rw [show pad2 9 ++ pad2 dd = '0' :: '9' :: pad2 dd from rfl, parseM,
      if_neg (by decide), if_pos (by decide), if_neg (by decide)]
    simp [hd] <;> decide
  · rw [show pad2 10 ++ pad2 dd = '1' :: '0' :: pad2 dd from rfl, parseM,
      if_pos (by decide), if_neg (by decide), if_pos (by decide)]
    simp [hd] <;> decide
  · rw [show pad2 11 ++ pad2 dd = '1' :: '1' :: pad2 dd from rfl, parseM,
      if_pos (by decide), if_neg (by decide), if_pos (by decide)]
    simp [hd] <;> decide
  · rw [show pad2 12 ++ pad2 dd = '1' :: '2' :: pad2 dd from rfl, parseM,
      if_pos (by decide), if_neg (by decide), if_pos (by decide)]
    simp [hd] <;> decide

theorem strptimeYMD_pad2 {yy mm dd : Nat} (hy : yy < 100) (hm1 : 1 ≤ mm)
    (hm2 : mm ≤ 12) (hd1 : 1 ≤ dd) (hd2 : dd ≤ 31) :
    strptimeYMD (pad2 yy ++ pad2 mm ++ pad2 dd) = some (yy, mm, dd) := by
  have h1 : yy / 10 % 10 < 10 := by omega
  have h2 : yy % 10 < 10 := by omega
  have hs : pad2 yy ++ pad2 mm ++ pad2 dd
      = digitChar (yy / 10 % 10) :: digitChar (yy % 10) :: (pad2 mm ++ pad2 dd) := rfl
  rw [hs, strptimeYMD_cons h1 h2, parseMD_pad2 hm1 hm2 hd1 hd2]
  have : 10 * (yy / 10 % 10) + yy % 10 = yy := by omega
  rw [this]
  simp

theorem daysInMonth_le_31 (y m : Nat) : daysInMonth y m ≤ 31 := by
  unfold daysInMonth
  split
  · split <;> omega
  · split <;> omega

/-- `_get_date` on a zero-padded valid `YYMMDD` string: the result is the
pivoted year (`00..68 ↦ 20YY`, `69..99 ↦ 19YY`) formatted `%Y-%m-%d`. -/
theorem get_date_pad2 {yy mm dd : Nat} (hy : yy < 100) (hm1 : 1 ≤ mm)
    (hm2 : mm ≤ 12) (hd1 : 1 ≤ dd) (hd2 : dd ≤ daysInMonth (pivotYear yy) mm) :
    get_date (pad2 yy ++ pad2 mm ++ pad2 dd)
      = some (dateFormat (pivotYear yy) mm dd) := by
  have hd31 : dd ≤ 31 := Nat.le_trans hd2 (daysInMonth_le_31 _ _)
  unfold get_date
  rw [strptimeYMD_pad2 hy hm1 hm2 hd1 hd31]
  simp only
  rw [if_pos ⟨hm1, hm2, hd1, hd2⟩]

/-! ### Structure of the match record -/

theorem numberStep_matches (st : HState) (key : String) (pat : Re) :
    ∃ l, (numberStep st key pat).2 = st.2 ++ l := by
  unfold numberStep
  cases reSearch pat st.1 with
  | none => exact ⟨[], (List.append_nil _).symm⟩
  | some x => obtain ⟨a, b, c⟩ := x; exact ⟨_, rfl⟩

theorem zeroStep_matches (st : HState) (key : String) (pat : Re) :
    ∃ l, (zeroStep st key pat).2 = st.2 ++ l := by
  unfold zeroStep
  cases reSearch pat st.1 with
  | none => exact ⟨[], (List.append_nil _).symm⟩
  | some x => obtain ⟨a, b, c⟩ := x; exact ⟨_, rfl⟩

theorem metaStep_matches (st : HState) (key : String) (pat : Re) :
    ∃ l, (metaStep st key pat).2 = st.2 ++ l := by
  unfold metaStep
  cases reSearch pat st.1 with
  | none => exact ⟨[], (List.append_nil _).symm⟩
  | some x => obtain ⟨a, b, c⟩ := x; exact ⟨_, rfl⟩

theorem xStep_matches {st st2 : HState} {key : String} {pat : Re}
    (h : xStep st key pat = some st2) : ∃ l, st2.2 = st.2 ++ l := by
  unfold xStep at h
  cases hs : reSearch pat st.1 with
  | none => rw [hs] at h; exact absurd h (by simp)
  | some x =>
    obtain ⟨a, b, c⟩ := x
    rw [hs] at h
    simp only [Option.some.injEq] at h
    exact ⟨_, congrArg Prod.snd h.symm⟩

theorem numberPhase_matches (st : HState) :
    ∃ l, (numberPhase st).2 = st.2 ++ l := by
  unfold numberPhase
  have : ∀ (bl : List (String × Re)) (st : HState),
      ∃ l, ((bl.foldl (fun st kp => numberStep st kp.1 kp.2) st).2) = st.2 ++ l := by
    intro bl
    induction bl with
    | nil => exact fun st => ⟨[], (List.append_nil _).symm⟩
    | cons kp t ih =>
      intro st
      rw [List.foldl_cons]
      obtain ⟨l1, h1⟩ := ih (numberStep st kp.1 kp.2)
      obtain ⟨l2, h2⟩ := numberStep_matches st kp.1 kp.2
      exact ⟨l2 ++ l1, by rw [h1, h2, List.append_assoc]⟩
  exact this number_buffer st

theorem zeroPhase_matches (st : HState) :
    ∃ l, (zeroPhase st).2 = st.2 ++ l := by
  unfold zeroPhase
  have : ∀ (bl : List (String × Re)) (st : HState),
      ∃ l, ((bl.foldl (fun st kp => zeroStep st kp.1 kp.2) st).2) = st.2 ++ l := by
    intro bl
    induction bl with
    | nil => exact fun st => ⟨[], (List.append_nil _).symm⟩
    | cons kp t ih =>
      intro st
      rw [List.foldl_cons]
      obtain ⟨l1, h1⟩ := ih (zeroStep st kp.1 kp.2)
      obtain ⟨l2, h2⟩ := zeroStep_matches st kp.1 kp.2
      exact ⟨l2 ++ l1, by rw [h1, h2, List.append_assoc]⟩
  exact this zero_buffer st

theorem metaPhase_matches (st : HState) :
    ∃ l, (metaPhase st).2 = st.2 ++ l := by
  unfold metaPhase
  have : ∀ (bl : List (String × Re)) (st : HState),
      ∃ l, ((bl.foldl (fun st kp => metaStep st kp.1 kp.2) st).2) = st.2 ++ l := by
    intro bl
    induction bl with
    | nil => exact fun st => ⟨[], (List.append_nil _).symm⟩
    | cons kp t ih =>
      intro st
      rw [List.foldl_cons]
      obtain ⟨l1, h1⟩ := ih (metaStep st kp.1 kp.2)
      obtain ⟨l2, h2⟩ := metaStep_matches st kp.1 kp.2
      exact ⟨l2 ++ l1, by rw [h1, h2, List.append_assoc]⟩
  exact this meta_buffer st

theorem xPhase_matches {st st5 : HState} (h : xPhase st = some st5) :
    ∃ l, st5.2 = st.2 ++ l := by
  unfold xPhase at h
  simp only [Option.bind_eq_some] at h
  obtain ⟨st3, h1, st4, h2, h3⟩ := h
  obtain ⟨l1, e1⟩ := xStep_matches h1
  obtain ⟨l2, e2⟩ := xStep_matches h2
  obtain ⟨l3, e3⟩ := xStep_matches h3
  exact ⟨l1 ++ l2 ++ l3, by rw [e3, e2, e1]; simp [List.append_assoc]⟩

/-- On success the match record starts with the derived `Exam_date`
entry; every later pass only appends. -/
theorem anonymize_matches_head {h out : List Char} {m : Matches}
    (hh : anonymize_twix_header h = some (out, m)) :
    ∃ exam_date formatted tail,
      examDateOf h = some exam_date ∧ get_date exam_date = some formatted ∧
      m = ("Exam_date", formatted) :: tail := by
  unfold anonymize_twix_header at hh
  simp only [Option.bind_eq_some, Option.map_eq_some'] at hh
  obtain ⟨exam_date, h1, formatted, h2, st5, h3, h4⟩ := hh
  rw [Prod.mk.injEq] at h4
  obtain ⟨hout, hm2⟩ := h4
  obtain ⟨l1, e1⟩ := numberPhase_matches (h, [("Exam_date", formatted)])
  obtain ⟨l2, e2⟩ := zeroPhase_matches (numberPhase (h, [("Exam_date", formatted)]))
  obtain ⟨l3, e3⟩ := xPhase_matches h3
  obtain ⟨l4, e4⟩ := metaPhase_matches st5
  refine ⟨exam_date, formatted, l1 ++ l2 ++ l3 ++ l4, h1, h2, ?_⟩
  rw [← hm2, e4, e3, e2, e1]
  simp [List.append_assoc]

/-- The `Exam_date` entry is never overwritten: it is the result of the
first `lookup`. -/
theorem anonymize_lookup_exam_date {h out : List Char} {m : Matches}
    (hh : anonymize_twix_header h = some (out, m)) :
    ∃ exam_date formatted,
      examDateOf h = some exam_date ∧ get_date exam_date = some formatted ∧
      m.lookup "Exam_date" = some formatted := by
  obtain ⟨exam_date, formatted, tail, h1, h2, h3⟩ := anonymize_matches_head hh
  refine ⟨exam_date, formatted, h1, h2, ?_⟩
  rw [h3]
  simp [List.lookup]

theorem take_all_of_le_takeWhile {p : Char → Bool} :
    ∀ {s : List Char} {m : Nat}, m ≤ (s.takeWhile p).length →
      (s.take m).all p = true := by
  intro s
  induction s with
  | nil => intro m _; simp
  | cons c cs ih =>
    intro m h
    cases m with
    | zero => simp
    | succ m =>
      rw [List.takeWhile_cons] at h
      by_cases hp : p c
      · rw [if_pos hp] at h
        simp only [List.length_cons] at h
        rw [List.take_succ_cons, List.all_cons, hp, Bool.true_and]
        exact ih (Nat.le_of_succ_le_succ h)
      · rw [if_neg hp] at h
        simp at h

theorem matchAt_sweep {d t : List Char} {len : Nat} {caps : Caps}
    (h : matchAt (sweepPat d) t = some (len, caps)) :
    ∃ w1 w2, t.take len = '"' :: (w1 ++ d ++ w2) ++ ['"'] ∧
      w1.all isDigitOrDot = true ∧ w2.all isDigitOrDot = true ∧
      len ≤ t.length := by
  have hsw : sweepPat d = .cat (.lit ['"']) (.cat (.star isDigitOrDot)
      (.cat (.lit d) (.cat (.star isDigitOrDot) (.lit ['"'])))) := rfl
  rw [hsw] at h
  unfold matchAt at h
  rw [matchRe] at h
  rw [matchRe] at h
  simp only [List.length_singleton] at h
  split at h
  case isFalse => exact absurd h (by simp)
  case isTrue hq1 =>
    rw [matchRe] at h
    obtain ⟨m1, hm1, h2⟩ := tryLens_sound h
    have hw1 : (((t.drop 1).take m1).all isDigitOrDot) = true :=
      take_all_of_le_takeWhile hm1
    rw [matchRe] at h2
    rw [matchRe] at h2
    split at h2
    case isFalse => exact absurd h2 (by simp)
    case isTrue hd1 =>
      rw [matchRe] at h2
      obtain ⟨m2, hm2, h3⟩ := tryLens_sound h2
      have hw2 : (((((t.drop 1).drop m1).drop d.length).take m2).all isDigitOrDot) = true :=
        take_all_of_le_takeWhile hm2
      rw [matchRe] at h3
      simp only [List.length_singleton] at h3
      split at h3
      case isFalse => exact absurd h3 (by simp)
      case isTrue hq2 =>
        have h4 : (some (t.length -
            ((((((t.drop 1).drop m1).drop d.length).drop m2).drop 1)).length,
            ([] : Caps)) : Option (Nat × Caps)) = some (len, caps) := h3
        simp only [List.length_drop] at h4
        have hp := Option.some.inj h4
        have hlen0 := congrArg Prod.fst hp
        simp only at hlen0
        have hq1l := List.IsPrefix.length_le (List.isPrefixOf_iff_prefix.mp hq1)
        have hd1l := List.IsPrefix.length_le (List.isPrefixOf_iff_prefix.mp hd1)
        have hq2l := List.IsPrefix.length_le (List.isPrefixOf_iff_prefix.mp hq2)
        simp only [List.length_singleton, List.length_drop] at hq1l hd1l hq2l
        have hmm1 : m1 ≤ t.length - 1 := by
          have h0 := List.IsPrefix.length_le
            (List.takeWhile_prefix (l := t.drop 1) isDigitOrDot)
          simp only [List.length_drop] at h0
          omega
        have hmm2 : m2 ≤ t.length - 1 - m1 - d.length := by
          have h0 := List.IsPrefix.length_le
            (List.takeWhile_prefix (l := ((t.drop 1).drop m1).drop d.length) isDigitOrDot)
          simp only [List.length_drop] at h0
          omega
        have hlen : len = 1 + (m1 + (d.length + (m2 + 1))) := by omega
        have hlenle : len ≤ t.length := by omega
        refine ⟨(t.drop 1).take m1, (((t.drop 1).drop m1).drop d.length).take m2,
          ?_, hw1, hw2, hlenle⟩
        have e0 : t.take 1 = ['"'] :=
          (List.prefix_iff_eq_take.mp (List.isPrefixOf_iff_prefix.mp hq1)).symm
        have e1 : ((t.drop 1).drop m1).take d.length = d :=
          (List.prefix_iff_eq_take.mp (List.isPrefixOf_iff_prefix.mp hd1)).symm
        have e2 : (((((t.drop 1).drop m1).drop d.length).drop m2).take 1) = ['"'] := by
          have := (List.prefix_iff_eq_take.mp (List.isPrefixOf_iff_prefix.mp hq2)).symm
          simpa [List.length_singleton] using this
        rw [hlen, List.take_add, List.take_add, List.take_add, List.take_add]
        rw [e0, e1, e2]
        simp [List.append_assoc]


/-- The exam-date derivation, decomposed. -/
theorem examDateOf_eq {h v comp : List Char} {st len : Nat} {caps : Caps}
    (hs : reSearch forDatePat h = some (st, len, caps))
    (hv : capGroup caps 2 = some v)
    (hc : (splitOnDot v).get? 10 = some comp) :
    examDateOf h = some ((comp.drop 2).take 6) := by
  simp only [examDateOf, hs, Option.some_bind, hv]
  rw [hc]
  rfl


/-! ### The output file: render lemmas -/

theorem renderOut_getElem? (o : OutFile) (i : Nat) :
    (renderOut o)[i]? = if i < o.size then some (o.data i) else none := by
  rcases Nat.lt_or_ge i o.size with h | h
  · rw [if_pos h, renderOut, List.getElem?_map, List.getElem?_range h]
    rfl
  · rw [if_neg (by omega), renderOut, List.getElem?_map,
      List.getElem?_eq_none_iff.mpr (by simpa using h)]
    rfl

theorem renderOut_length (o : OutFile) : (renderOut o).length = o.size := by
  simp [renderOut]

theorem owrite_data (o : OutFile) (bs : List Nat) (j : Nat) :
    (owrite o bs).data j
      = if o.pos ≤ j ∧ j < o.pos + bs.length then bs.getD (j - o.pos) 0
        else if j < o.size then o.data j else 0 := rfl

theorem owrite_append (o : OutFile) (bs : List Nat) (h : o.size ≤ o.pos) :
    renderOut (owrite o bs)
      = renderOut o ++ List.replicate (o.pos - o.size) 0 ++ bs ∧
    (owrite o bs).size = o.pos + bs.length ∧
    (owrite o bs).pos = o.pos + bs.length := by
  have hsz : (owrite o bs).size = o.pos + bs.length := by
    simp [owrite, Nat.max_eq_right (le_trans h (Nat.le_add_right _ _))]
  refine ⟨?_, hsz, rfl⟩
  apply List.ext_getElem?
  intro i
  rw [renderOut_getElem?, hsz, List.getElem?_append, List.getElem?_append]
  simp only [List.length_append, renderOut_length, List.length_replicate, owrite_data]
  rcases Nat.lt_or_ge i o.size with hi | hi
  · rw [if_pos (by omega), if_neg (by omega), if_pos hi, if_pos (by omega),
      if_pos hi, renderOut_getElem?, if_pos hi]
  · rcases Nat.lt_or_ge i o.pos with hi2 | hi2
    · rw [if_pos (by omega), if_neg (by omega), if_neg (by omega), if_pos (by omega),
        if_neg (by omega), List.getElem?_replicate, if_pos (by omega)]
    · rcases Nat.lt_or_ge i (o.pos + bs.length) with hi3 | hi3
      · rw [if_pos hi3, if_pos (by omega), if_neg (by omega)]
        have hidx : i - (o.size + (o.pos - o.size)) = i - o.pos := by omega
        rw [hidx, List.getElem?_eq_getElem (by omega),
          List.getD_eq_getElem?_getD, List.getElem?_eq_getElem (by omega)]
        rfl
      · rw [if_neg (by omega), if_neg (by omega),
          List.getElem?_eq_none_iff.mpr (by omega)]

theorem owrite_inplace (o : OutFile) (bs : List Nat) (h : o.pos + bs.length ≤ o.size) :
    renderOut (owrite o bs)
      = (renderOut o).take o.pos ++ bs ++ (renderOut o).drop (o.pos + bs.length) ∧
    (owrite o bs).size = o.size ∧
    (owrite o bs).pos = o.pos + bs.length := by
  have hsz : (owrite o bs).size = o.size := by
    simp [owrite, Nat.max_eq_left h]
  refine ⟨?_, hsz, rfl⟩
  apply List.ext_getElem?
  intro i
  rw [renderOut_getElem?, hsz, List.getElem?_append, List.getElem?_append]
  simp only [List.length_append, List.length_take, renderOut_length, owrite_data]
  rcases Nat.lt_or_ge i o.pos with hi | hi
  · rw [if_pos (by omega), if_neg (by omega), if_pos (by omega), if_pos (by omega),
      if_pos (by omega), List.getElem?_take, if_pos (by omega),
      renderOut_getElem?, if_pos (by omega)]
  · rcases Nat.lt_or_ge i (o.pos + bs.length) with hi2 | hi2
    · rw [if_pos (by omega), if_pos (by omega), if_pos (by omega), if_neg (by omega)]
      have hidx : i - min o.pos o.size = i - o.pos := by omega
      rw [hidx, List.getElem?_eq_getElem (by omega),
        List.getD_eq_getElem?_getD, List.getElem?_eq_getElem (by omega)]
      rfl
    · rcases Nat.lt_or_ge i o.size with hi3 | hi3
      · rw [if_pos hi3, if_neg (by omega), if_pos hi3, if_neg (by omega),
          List.getElem?_drop, renderOut_getElem?]
        have hidx : o.pos + bs.length + (i - (min o.pos o.size + bs.length)) = i := by
          omega
        rw [hidx, if_pos hi3]
      · rw [if_neg (by omega), if_neg (by omega),
          List.getElem?_drop, renderOut_getElem?, if_neg (by omega)]

theorem renderOut_oseek (o : OutFile) (p : Nat) : renderOut (oseek o p) = renderOut o := rfl

theorem oseek_pos (o : OutFile) (p : Nat) : (oseek o p).pos = p := rfl

theorem oseek_size (o : OutFile) (p : Nat) : (oseek o p).size = o.size := rfl

theorem empty_pos : OutFile.empty.pos = 0 := rfl

theorem empty_size : OutFile.empty.size = 0 := rfl

theorem owrite_pos (o : OutFile) (bs : List Nat) :
    (owrite o bs).pos = o.pos + bs.length := rfl

theorem owrite_size (o : OutFile) (bs : List Nat) :
    (owrite o bs).size = max o.size (o.pos + bs.length) := rfl

theorem owrite_owrite (o : OutFile) (a b : List Nat) :
    owrite (owrite o a) b = owrite o (a ++ b) := by
  have hd : (owrite (owrite o a) b).data = (owrite o (a ++ b)).data := by
    funext j
    simp only [owrite_data, owrite_pos, owrite_size, List.length_append]
    split_ifs <;>
      first
        | rfl
        | (exfalso; omega)
        | (rw [List.getD_append _ _ _ _ (by omega)])
        | (rw [List.getD_append_right _ _ _ _ (by omega)]; congr 1; omega)
  have hs : (owrite (owrite o a) b).size = (owrite o (a ++ b)).size := by
    simp only [owrite_size, owrite_pos, List.length_append]
    omega
  have hp : (owrite (owrite o a) b).pos = (owrite o (a ++ b)).pos := by
    simp only [owrite_pos, List.length_append]
    omega
  cases hcase : owrite (owrite o a) b with
  | mk d s p =>
    cases hcase2 : owrite o (a ++ b) with
    | mk d2 s2 p2 =>
      rw [hcase] at hd hs hp
      rw [hcase2] at hd hs hp
      simp only at hd hs hp
      rw [hd, hs, hp]

theorem pack32_leVal (bs : List Nat) (hl : bs.length = 4) (hb : ∀ b ∈ bs, b < 256) :
    pack32 (leVal bs) = bs := by
  match bs, hl with
  | [a, b, c, d], _ =>
    have ha : a < 256 := hb a (by simp)
    have hbb : b < 256 := hb b (by simp)
    have hc : c < 256 := hb c (by simp)
    have hd : d < 256 := hb d (by simp)
    simp only [pack32, leVal, List.foldr, List.cons.injEq, and_true]
    refine ⟨?_, ?_, ?_, ?_⟩ <;> omega

theorem pack64_leVal (bs : List Nat) (hl : bs.length = 8) (hb : ∀ b ∈ bs, b < 256) :
    pack64 (leVal bs) = bs := by
  match bs, hl with
  | [a, b, c, d, e, f, g, h], _ =>
    have ha : a < 256 := hb a (by simp)
    have hbb : b < 256 := hb b (by simp)
    have hc : c < 256 := hb c (by simp)
    have hd : d < 256 := hb d (by simp)
    have he : e < 256 := hb e (by simp)
    have hf : f < 256 := hb f (by simp)
    have hg : g < 256 := hb g (by simp)
    have hh : h < 256 := hb h (by simp)
    simp only [pack64, leVal, List.foldr, List.cons.injEq, and_true]
    refine ⟨?_, ?_, ?_, ?_, ?_, ?_, ?_, ?_⟩ <;> omega

/-! ### A tiled VD container round-trips outside the redacted regions -/

theorem pyRead_length (input : List Nat) (p n : Nat) :
    (pyRead input p n).length = min n (input.length - p) := by
  simp [pyRead]

theorem take24_split {α : Type} (l : List α) :
    l.take 4 ++ ((l.drop 4).take 4 ++ ((l.drop 8).take 8 ++ (l.drop 16).take 8))
      = l.take 24 := by
  rw [show (24 : Nat) = 4 + (4 + (8 + 8)) from rfl, List.take_add, List.take_add,
    List.take_add, List.drop_drop, List.drop_drop]

theorem measStep_tiled (input : List Nat) (i : Nat) (fout : OutFile)
    (hb : ∀ b ∈ input, b < 256)
    (hEl : 8 + 152 * (i + 1) ≤ input.length)
    (hhs4 : 4 ≤ measHS input i)
    (hhl : measHS input i ≤ measLen input i)
    (hr : measOffset input i + measLen input i ≤ input.length)
    {out : List Char} {ms : Matches}
    (ha : anonymize_twix_header (latin1Decode (pyDropLastN 24 (measHdr input i)))
            = some (out, ms)) :
    measStep input false i fout
      = .ok (owrite (oseek (owrite (oseek fout (8 + 152 * i)) (anonEntry input i))
              (measOffset input i)) (anonBlockOf input i), ms) := by
  have hbE : ∀ b ∈ tblEntry input i, b < 256 := fun b hmem =>
    hb b (List.mem_of_mem_drop (List.mem_of_mem_take hmem))
  have eE : pyRead input (8 + 152 * i) 152 = tblEntry input i := rfl
  have hE : (tblEntry input i).length = 152 := by
    rw [tblEntry, pyRead_length]
    omega
  have eO : leVal (((tblEntry input i).drop 8).take 8) = measOffset input i := rfl
  have eL : leVal (((tblEntry input i).drop 16).take 8) = measLen input i := rfl
  have eHS : leVal (pyRead input (measOffset input i) 4) = measHS input i := rfl
  have h4 : (pyRead input (measOffset input i) 4).length = 4 := by
    rw [pyRead_length]
    omega
  have hmin1 : min (measOffset input i + 4) input.length = measOffset input i + 4 := by
    omega
  have eH : pyRead input (measOffset input i + 4) (measHS input i - 4)
      = measHdr input i := rfl
  have hmin2 : min (measOffset input i + 4 + (measHS input i - 4)) input.length
      = measOffset input i + measHS input i := by omega
  simp only [measStep, eE, eO, eL, eHS]
  rw [if_pos hE, if_pos h4]
  simp only [hmin1, if_pos hhs4, eH, ha, hmin2]
  rw [if_neg (show ¬((false : Bool) = true) from by decide), if_pos hhl]
  rw [owrite_owrite, owrite_owrite, owrite_owrite]
  have eEntry : pack32 (leVal ((tblEntry input i).take 4)) ++
      pack32 (leVal (((tblEntry input i).drop 4).take 4)) ++
      pack64 (measOffset input i) ++ pack64 (measLen input i) ++
      List.replicate 64 120 ++ ((tblEntry input i).drop 88).take 64
      = anonEntry input i := by
    rw [pack32_leVal _ (by simp [List.length_take, hE]) (fun b hmem =>
        hbE b (List.mem_of_mem_take hmem))]
    rw [pack32_leVal _ (by simp [hE]) (fun b hmem =>
        hbE b (List.mem_of_mem_drop (List.mem_of_mem_take hmem)))]
    rw [measOffset, measLen]
    rw [pack64_leVal _ (by simp [hE]) (fun b hmem =>
        hbE b (List.mem_of_mem_drop (List.mem_of_mem_take hmem)))]
    rw [pack64_leVal _ (by simp [hE]) (fun b hmem =>
        hbE b (List.mem_of_mem_drop (List.mem_of_mem_take hmem)))]
    rw [anonEntry, ← take24_split]
    simp [List.append_assoc]
  have eBlock : pack32 (measHS input i) ++ (latin1Encode out ++
      (pyTakeLastN 24 (measHdr input i) ++
       pyRead input (measOffset input i + measHS input i)
         (measLen input i - measHS input i)))
      = anonBlockOf input i := by
    rw [anonBlockOf, ha]
    simp only [Option.map_some', Option.getD_some]
    rw [measHS, pack32_leVal _ h4 (fun b hmem =>
        hb b (List.mem_of_mem_drop (List.mem_of_mem_take hmem)))]
    simp [List.append_assoc]
  rw [eEntry, eBlock]

theorem flatMap_range_length {f : Nat → List Nat} {c : Nat} :
    ∀ k, (∀ j, j < k → (f j).length = c) →
      ((List.range k).flatMap f).length = c * k := by
  intro k
  induction k with
  | zero => intro _; simp
  | succ k ih =>
    intro h
    rw [List.range_succ, List.flatMap_append, List.length_append,
      ih (fun j hj => h j (by omega)), List.flatMap_cons, List.flatMap_nil]
    rw [List.length_append, List.length_nil, h k (by omega), Nat.mul_succ]
    simp

theorem blockStart_mono (input : List Nat) (N : Nat) {i j : Nat} (h : i ≤ j) :
    blockStart input N i ≤ blockStart input N j := by
  induction h with
  | refl => exact Nat.le_refl _
  | step h2 ih => exact le_trans ih (Nat.le_add_right _ _)

theorem anonEntry_length (input : List Nat) (i : Nat)
    (hE : (tblEntry input i).length = 152) : (anonEntry input i).length = 152 := by
  simp [anonEntry, hE]

theorem measHdr_length (input : List Nat) (i : Nat)
    (hhs4 : 4 ≤ measHS input i) (hhl : measHS input i ≤ measLen input i)
    (hr : measOffset input i + measLen input i ≤ input.length) :
    (measHdr input i).length = measHS input i - 4 := by
  rw [measHdr, pyRead_length]
  omega

theorem anonBlockOf_length (input : List Nat) (i : Nat)
    (hhs4 : 4 ≤ measHS input i) (hhl : measHS input i ≤ measLen input i)
    (hr : measOffset input i + measLen input i ≤ input.length)
    {out : List Char} {ms : Matches}
    (ha : anonymize_twix_header (latin1Decode (pyDropLastN 24 (measHdr input i)))
            = some (out, ms)) :
    (anonBlockOf input i).length = measLen input i := by
  have hout := anonymize_twix_header_length ha
  have hhdr := measHdr_length input i hhs4 hhl hr
  simp only [latin1Decode, List.length_map, pyDropLastN, List.length_take,
    List.length_drop] at hout
  rw [anonBlockOf, ha]
  simp only [Option.map_some', Option.getD_some]
  simp only [List.length_append, latin1Encode, List.length_map, hout,
    pyTakeLastN, List.length_drop, List.length_take, pyRead_length, pack32,
    List.length_cons, List.length_nil, hhdr]
  omega

theorem vdLoop_tiled (input : List Nat) (N : Nat)
    (Hb : ∀ b ∈ input, b < 256)
    (Hoff : ∀ i, i < N → measOffset input i = blockStart input N i)
    (Hhs : ∀ i, i < N → 4 ≤ measHS input i ∧ measHS input i ≤ measLen input i)
    (Hend : blockStart input N N = input.length)
    (Hanon : ∀ i, i < N →
      anonymize_twix_header (latin1Decode (pyDropLastN 24 (measHdr input i))) ≠ none) :
    ∀ k i fout ms0, i + k = N →
      fout.pos = blockStart input N i → fout.size = blockStart input N i →
      renderOut fout
        = (input.take 8 ++ (List.range i).flatMap (anonEntry input))
          ++ (List.replicate (152 * (N - i)) 0
              ++ (List.range i).flatMap (anonBlockOf input)) →
      ∃ ms fout',
        vdLoop input false k i fout (some ms0) = (.ok ms, fout') ∧
        renderOut fout'
          = (input.take 8 ++ (List.range N).flatMap (anonEntry input))
            ++ (List.range N).flatMap (anonBlockOf input) := by
  have hlen : 8 + 152 * N ≤ input.length := by
    have h1 := blockStart_mono input N (Nat.zero_le N)
    have h2 : blockStart input N 0 = 8 + 152 * N := rfl
    omega
  have hEj : ∀ j, j < N → (tblEntry input j).length = 152 := by
    intro j hj
    rw [tblEntry, pyRead_length]
    omega
  intro k
  induction k with
  | zero =>
    intro i fout ms0 hik hpos hsize hrender
    refine ⟨ms0, fout, rfl, ?_⟩
    rw [hrender]
    have hiN : i = N := by omega
    subst hiN
    simp
  | succ k ih =>
    intro i fout ms0 hik hpos hsize hrender
    have hiN : i < N := by omega
    have hb0i : blockStart input N 0 ≤ blockStart input N i :=
      blockStart_mono input N (Nat.zero_le i)
    have hbs0 : blockStart input N 0 = 8 + 152 * N := rfl
    have hbsi : blockStart input N (i + 1)
        = blockStart input N i + measLen input i := rfl
    have hbiN : blockStart input N (i + 1) ≤ blockStart input N N :=
      blockStart_mono input N (by omega)
    obtain ⟨hhs4, hhl⟩ := Hhs i hiN
    have hoff := Hoff i hiN
    have hr : measOffset input i + measLen input i ≤ input.length := by
      rw [hoff]
      omega
    have hEl : 8 + 152 * (i + 1) ≤ input.length := by omega
    obtain ⟨⟨out, ms_i⟩, ha⟩ := Option.ne_none_iff_exists'.mp (Hanon i hiN)
    have hE : (tblEntry input i).length = 152 := hEj i hiN
    have hlen8 : (input.take 8).length = 8 := by
      rw [List.length_take]
      omega
    have hents : ((List.range i).flatMap (anonEntry input)).length = 152 * i :=
      flatMap_range_length i
        (fun j hj => anonEntry_length input j (hEj j (by omega)))
    have hP : (input.take 8 ++ (List.range i).flatMap (anonEntry input)).length
        = 8 + 152 * i := by
      rw [List.length_append, hlen8, hents]
    have hAE : (anonEntry input i).length = 152 := anonEntry_length input i hE
    have hAB : (anonBlockOf input i).length = measLen input i :=
      anonBlockOf_length input i hhs4 hhl hr ha
    have hzsplit : (152 : Nat) * (N - i) = 152 + 152 * (N - (i + 1)) := by omega
    -- the in-place table-entry write
    obtain ⟨hw2r, hw2s, hw2p⟩ :=
      owrite_inplace (oseek fout (8 + 152 * i)) (anonEntry input i)
        (by rw [show (oseek fout (8 + 152 * i)).pos = 8 + 152 * i from rfl, hAE,
              show (oseek fout (8 + 152 * i)).size = fout.size from rfl, hsize]
            omega)
    rw [show (oseek fout (8 + 152 * i)).pos = 8 + 152 * i from rfl, hAE] at hw2r
    rw [renderOut_oseek, hrender] at hw2r
    rw [List.take_left' hP] at hw2r
    rw [hzsplit, List.replicate_add] at hw2r
    rw [List.drop_append_eq_append_drop] at hw2r
    rw [List.drop_eq_nil_of_le (by rw [hP]; omega)] at hw2r
    rw [hP, show 8 + 152 * i + 152 - (8 + 152 * i) = 152 from by omega] at hw2r
    rw [List.drop_append_eq_append_drop, List.drop_append_eq_append_drop] at hw2r
    rw [List.drop_replicate, List.drop_replicate] at hw2r
    simp only [Nat.sub_self, Nat.sub_zero, List.replicate_zero, List.nil_append,
      List.length_append, List.length_replicate, List.drop_zero] at hw2r
    rw [show (152 : Nat) - (152 + 152 * (N - (i + 1))) = 0 from by omega,
      List.drop_zero] at hw2r
    -- the appended measurement-block write
    obtain ⟨hw4r, hw4s, hw4p⟩ :=
      owrite_append
        (oseek (owrite (oseek fout (8 + 152 * i)) (anonEntry input i))
          (measOffset input i))
        (anonBlockOf input i)
        (by show (owrite (oseek fout (8 + 152 * i)) (anonEntry input i)).size
              ≤ measOffset input i
            rw [hw2s, show (oseek fout (8 + 152 * i)).size = fout.size from rfl,
              hsize, hoff])
    rw [renderOut_oseek] at hw4r
    rw [show (oseek (owrite (oseek fout (8 + 152 * i)) (anonEntry input i))
          (measOffset input i)).pos = measOffset input i from rfl] at hw4r
    rw [show (oseek (owrite (oseek fout (8 + 152 * i)) (anonEntry input i))
          (measOffset input i)).size
        = (owrite (oseek fout (8 + 152 * i)) (anonEntry input i)).size from rfl] at hw4r
    rw [hw2s, show (oseek fout (8 + 152 * i)).size = fout.size from rfl, hsize,
      hoff, Nat.sub_self, List.replicate_zero] at hw4r
    rw [hw2r] at hw4r
    -- the loop step
    rw [vdLoop, measStep_tiled input i fout Hb hEl hhs4 hhl hr ha]
    refine ih (i + 1)
      (owrite (oseek (owrite (oseek fout (8 + 152 * i)) (anonEntry input i))
        (measOffset input i)) (anonBlockOf input i))
      ms_i (by omega) ?_ ?_ ?_
    · rw [owrite_pos, show (oseek (owrite (oseek fout (8 + 152 * i))
          (anonEntry input i)) (measOffset input i)).pos
          = measOffset input i from rfl, hAB, hoff, hbsi]
    · rw [owrite_size, show (oseek (owrite (oseek fout (8 + 152 * i))
          (anonEntry input i)) (measOffset input i)).pos
          = measOffset input i from rfl,
        show (oseek (owrite (oseek fout (8 + 152 * i)) (anonEntry input i))
          (measOffset input i)).size
          = (owrite (oseek fout (8 + 152 * i)) (anonEntry input i)).size from rfl,
        hw2s, show (oseek fout (8 + 152 * i)).size = fout.size from rfl, hsize,
        hAB, hoff, hbsi]
      omega
    · rw [hoff, hw4r]
      rw [List.range_succ, List.flatMap_append, List.flatMap_append,
        List.flatMap_cons, List.flatMap_nil]
      simp [List.append_assoc]

theorem entries_decomp (input : List Nat) :
    ∀ k, 8 + 152 * k ≤ input.length →
      (List.range k).flatMap (tblEntry input) = (input.drop 8).take (152 * k) := by
  intro k
  induction k with
  | zero => intro _; simp
  | succ k ih =>
    intro h
    rw [List.range_succ, List.flatMap_append, List.flatMap_cons, List.flatMap_nil,
      ih (by omega), List.append_nil]
    rw [show 152 * (k + 1) = 152 * k + 152 from by ring, List.take_add]
    rw [List.drop_drop]
    rfl

theorem blocks_decomp (input : List Nat) (N : Nat)
    (Hoff : ∀ i, i < N → measOffset input i = blockStart input N i)
    (Hend : blockStart input N N ≤ input.length) :
    ∀ k, k ≤ N →
      (List.range k).flatMap
          (fun i => pyRead input (measOffset input i) (measLen input i))
        = (input.drop (8 + 152 * N)).take (blockStart input N k - (8 + 152 * N)) := by
  intro k
  induction k with
  | zero =>
    intro _
    rw [show blockStart input N 0 = 8 + 152 * N from rfl]
    simp
  | succ k ih =>
    intro h
    rw [List.range_succ, List.flatMap_append, List.flatMap_cons, List.flatMap_nil,
      ih (by omega), List.append_nil]
    have hm0k : blockStart input N 0 ≤ blockStart input N k :=
      blockStart_mono input N (Nat.zero_le k)
    have hms : blockStart input N (k + 1)
        = blockStart input N k + measLen input k := rfl
    have hbs0 : blockStart input N 0 = 8 + 152 * N := rfl
    rw [show blockStart input N (k + 1) - (8 + 152 * N)
        = (blockStart input N k - (8 + 152 * N)) + measLen input k from by omega]
    rw [List.take_add, List.drop_drop]
    rw [show 8 + 152 * N + (blockStart input N k - (8 + 152 * N))
        = blockStart input N k from by omega]
    rw [Hoff k (by omega)]
    rfl

theorem tiled_input_decomp (input : List Nat) (N : Nat)
    (Hoff : ∀ i, i < N → measOffset input i = blockStart input N i)
    (Hend : blockStart input N N = input.length) :
    input = (input.take 8 ++ (List.range N).flatMap (tblEntry input))
      ++ (List.range N).flatMap
          (fun i => pyRead input (measOffset input i) (measLen input i)) := by
  have h0 : blockStart input N 0 ≤ blockStart input N N :=
    blockStart_mono input N (Nat.zero_le N)
  have hbs0 : blockStart input N 0 = 8 + 152 * N := rfl
  rw [entries_decomp input N (by omega),
    blocks_decomp input N Hoff (le_of_eq Hend) N (le_refl N), Hend]
  rw [List.take_of_length_le (l := input.drop (8 + 152 * N))
    (le_of_eq (by rw [List.length_drop]))]
  rw [← List.take_add, List.take_append_drop]

theorem pyDrop_take_lastN {α : Type} (n : Nat) (l : List α) :
    pyDropLastN n l ++ pyTakeLastN n l = l :=
  List.take_append_drop _ _

theorem block_split (input : List Nat) (i : Nat)
    (hhs4 : 4 ≤ measHS input i) (hhl : measHS input i ≤ measLen input i)
    (hr : measOffset input i + measLen input i ≤ input.length) :
    pyRead input (measOffset input i) (measLen input i)
      = pyRead input (measOffset input i) 4
        ++ (measHdr input i
          ++ pyRead input (measOffset input i + measHS input i)
               (measLen input i - measHS input i)) := by
  simp only [pyRead, measHdr]
  rw [show measLen input i
      = 4 + ((measHS input i - 4) + (measLen input i - measHS input i)) from by omega]
  rw [List.take_add, List.take_add, List.drop_drop, List.drop_drop]
  rw [show measOffset input i + 4 + (measHS input i - 4)
      = measOffset input i + measHS input i from by omega]
  rw [show 4 + (measHS input i - 4 + (measLen input i - measHS input i))
      - measHS input i = measLen input i - measHS input i from by omega]

theorem entry_split (l : List Nat) (hE : l.length = 152) :
    l = l.take 24 ++ ((l.drop 24).take 64 ++ (l.drop 88).take 64) := by
  rw [List.take_of_length_le (l := l.drop 88) (by rw [List.length_drop, hE])]
  rw [show (88 : Nat) = 24 + 64 from rfl, ← List.drop_drop]
  rw [List.take_append_drop, List.take_append_drop]

theorem anonymize_twix_vd_tiled (input : List Nat) (N : Nat)
    (HN : 1 ≤ N)
    (Hb : ∀ b ∈ input, b < 256)
    (Hsig : leVal ((input.take 8).drop 4) = N)
    (Hoff : ∀ i, i < N → measOffset input i = blockStart input N i)
    (Hhs : ∀ i, i < N → 4 ≤ measHS input i ∧ measHS input i ≤ measLen input i)
    (Hend : blockStart input N N = input.length)
    (Hanon : ∀ i, i < N →
      anonymize_twix_header (latin1Decode (pyDropLastN 24 (measHdr input i))) ≠ none) :
    ∃ ms fout',
      anonymize_twix_vd input OutFile.empty false = (.ok ms, fout') ∧
      renderOut fout'
        = (input.take 8 ++ (List.range N).flatMap (anonEntry input))
          ++ (List.range N).flatMap (anonBlockOf input) := by
  obtain ⟨n, rfl⟩ : ∃ n, N = n + 1 := ⟨N - 1, by omega⟩
  have hlen : 8 + 152 * (n + 1) ≤ input.length := by
    have h0 := blockStart_mono input (n + 1) (Nat.zero_le (n + 1))
    have hbs0 : blockStart input (n + 1) 0 = 8 + 152 * (n + 1) := rfl
    omega
  have hbs1 : blockStart input (n + 1) 1
      = blockStart input (n + 1) 0 + measLen input 0 := rfl
  have hbs0 : blockStart input (n + 1) 0 = 8 + 152 * (n + 1) := rfl
  obtain ⟨hhs40, hhl0⟩ := Hhs 0 (by omega)
  have hoff0 := Hoff 0 (by omega)
  have hr0 : measOffset input 0 + measLen input 0 ≤ input.length := by
    have h1 := blockStart_mono input (n + 1) (show 1 ≤ n + 1 by omega)
    rw [hoff0]
    omega
  obtain ⟨⟨out0, ms0⟩, ha0⟩ := Option.ne_none_iff_exists'.mp (Hanon 0 (by omega))
  have hE0 : (tblEntry input 0).length = 152 := by
    rw [tblEntry, pyRead_length]
    omega
  have hAE0 : (anonEntry input 0).length = 152 := anonEntry_length input 0 hE0
  have hAB0 : (anonBlockOf input 0).length = measLen input 0 :=
    anonBlockOf_length input 0 hhs40 hhl0 hr0 ha0
  have htk8 : (input.take 8).length = 8 := by
    rw [List.length_take]
    omega
  -- the signature write
  obtain ⟨hf1r, hf1s, hf1p⟩ :=
    owrite_append OutFile.empty (input.take 8) (Nat.le_refl 0)
  simp only [show renderOut OutFile.empty = [] from rfl, empty_pos, empty_size,
    Nat.sub_self, List.replicate_zero, List.nil_append, List.append_nil,
    Nat.zero_add, htk8] at hf1r hf1s hf1p
  -- the first table-entry write (an append: pos = size = 8)
  obtain ⟨hf3r, hf3s, hf3p⟩ :=
    owrite_append (oseek (owrite OutFile.empty (input.take 8)) (8 + 152 * 0))
      (anonEntry input 0)
      (by show (owrite OutFile.empty (input.take 8)).size ≤ 8 + 152 * 0
          rw [hf1s])
  rw [renderOut_oseek, hf1r] at hf3r
  simp only [oseek_pos, oseek_size, hf1s, hAE0] at hf3r hf3s hf3p
  rw [show 8 + 152 * 0 - 8 = 0 from rfl, List.replicate_zero] at hf3r
  simp only [List.append_nil, List.nil_append] at hf3r
  -- the first measurement-block write (gap append to offset 0)
  obtain ⟨hf5r, hf5s, hf5p⟩ :=
    owrite_append
      (oseek (owrite (oseek (owrite OutFile.empty (input.take 8)) (8 + 152 * 0))
        (anonEntry input 0)) (measOffset input 0))
      (anonBlockOf input 0)
      (by show (owrite (oseek (owrite OutFile.empty (input.take 8)) (8 + 152 * 0))
            (anonEntry input 0)).size ≤ measOffset input 0
          rw [hf3s, hoff0, hbs0]
          omega)
  rw [renderOut_oseek, hf3r] at hf5r
  simp only [oseek_pos, oseek_size, hf3s, hAB0] at hf5r hf5s hf5p
  rw [show measOffset input 0 - (8 + 152 * 0 + 152) = 152 * n from by
    rw [hoff0, hbs0]; omega] at hf5r
  -- the remaining loop via the invariant
  obtain ⟨ms, fout', hloop, hrender⟩ :=
    vdLoop_tiled input (n + 1) Hb Hoff Hhs Hend Hanon n 1
      (owrite (oseek (owrite (oseek (owrite OutFile.empty (input.take 8))
        (8 + 152 * 0)) (anonEntry input 0)) (measOffset input 0))
        (anonBlockOf input 0))
      ms0 (by omega)
      (by rw [hf5p, hoff0]; exact hbs1.symm)
      (by rw [hf5s, hoff0]; exact hbs1.symm)
      (by rw [hf5r]
          rw [show List.range 1 = [0] from rfl]
          simp only [List.flatMap_cons, List.flatMap_nil, List.append_nil,
            Nat.add_sub_cancel]
          simp [List.append_assoc])
  refine ⟨ms, fout', ?_, hrender⟩
  have esig : pyRead input 0 8 = input.take 8 := by
    rw [pyRead, List.drop_zero]
  have e1 : (input.take 8).take 4 = input.take 4 := by
    rw [List.take_take]
    norm_num
  have hp1 : pack32 (leVal (input.take 4)) = input.take 4 :=
    pack32_leVal _ (by rw [List.length_take]; omega)
      (fun b hmem => Hb b (List.mem_of_mem_take hmem))
  have hp2 : pack32 (leVal ((input.take 8).drop 4)) = (input.take 8).drop 4 :=
    pack32_leVal _ (by rw [List.length_drop, htk8])
      (fun b hmem => Hb b (List.mem_of_mem_take (List.mem_of_mem_drop hmem)))
  have e48 : input.take 4 ++ (input.take 8).drop 4 = input.take 8 := by
    conv_lhs => rw [← e1]
    rw [List.take_append_drop]
  simp only [anonymize_twix_vd, esig]
  rw [if_pos htk8, if_neg (show ¬((false : Bool) = true) from by decide)]
  rw [e1, hp1, hp2, e48, Hsig]
  rw [vdLoop,
    measStep_tiled input 0 (owrite OutFile.empty (input.take 8)) Hb
      (by omega) hhs40 hhl0 hr0 ha0]
  exact hloop

theorem anonymize_twix_vb_frame (input : List Nat)
    (Hb : ∀ b ∈ input, b < 256)
    (hhs4 : 4 ≤ leVal (input.take 4))
    (hhl : leVal (input.take 4) ≤ input.length)
    {out : List Char} {ms : Matches}
    (ha : anonymize_twix_header (latin1Decode (pyDropLastN 24
        ((input.drop 4).take (leVal (input.take 4) - 4)))) = some (out, ms)) :
    ∃ fout',
      anonymize_twix_vb input OutFile.empty false = (.ok ms, fout') ∧
      renderOut fout'
        = input.take 4 ++ latin1Encode out
            ++ pyTakeLastN 24 ((input.drop 4).take (leVal (input.take 4) - 4))
            ++ input.drop (leVal (input.take 4)) ∧
      (latin1Encode out).length
        = (pyDropLastN 24 ((input.drop 4).take (leVal (input.take 4) - 4))).length ∧
      input
        = input.take 4
            ++ (pyDropLastN 24 ((input.drop 4).take (leVal (input.take 4) - 4))
                ++ (pyTakeLastN 24 ((input.drop 4).take (leVal (input.take 4) - 4))
                    ++ input.drop (leVal (input.take 4)))) := by
  have e0 : pyRead input 0 4 = input.take 4 := by
    rw [pyRead, List.drop_zero]
  have h4 : (input.take 4).length = 4 := by
    rw [List.length_take]
    omega
  have hmin1 : min 4 input.length = 4 := by omega
  have e1 : pyRead input 4 (leVal (input.take 4) - 4)
      = (input.drop 4).take (leVal (input.take 4) - 4) := rfl
  have hmin2 : min (4 + (leVal (input.take 4) - 4)) input.length
      = leVal (input.take 4) := by omega
  have e2 : pyReadAllFrom input (leVal (input.take 4))
      = input.drop (leVal (input.take 4)) := rfl
  have hp32 : pack32 (leVal (input.take 4)) = input.take 4 :=
    pack32_leVal _ h4 (fun b hmem => Hb b (List.mem_of_mem_take hmem))
  simp only [anonymize_twix_vb, e0]
  rw [if_pos h4]
  simp only [hmin1, if_pos hhs4, e1, ha, hmin2, e2]
  rw [if_neg (show ¬((false : Bool) = true) from by decide)]
  rw [owrite_owrite, owrite_owrite, owrite_owrite]
  refine ⟨_, rfl, ?_, ?_, ?_⟩
  · obtain ⟨hr1, hs1, hp1⟩ :=
      owrite_append OutFile.empty
        (pack32 (leVal (input.take 4)) ++ (latin1Encode out ++
          (pyTakeLastN 24 ((input.drop 4).take (leVal (input.take 4) - 4)) ++
           input.drop (leVal (input.take 4))))) (Nat.le_refl 0)
    rw [hr1, show renderOut OutFile.empty = [] from rfl, empty_pos, empty_size,
      Nat.sub_self, List.replicate_zero, hp32]
    simp [List.append_assoc]
  · have hout := anonymize_twix_header_length ha
    simp only [latin1Decode, List.length_map] at hout
    simp [latin1Encode, hout]
  · have e : List.take (4 + (leVal (input.take 4) - 4)) input
        = input.take 4 ++ (input.drop 4).take (leVal (input.take 4) - 4) :=
      List.take_add input 4 (leVal (input.take 4) - 4)
    rw [show 4 + (leVal (input.take 4) - 4) = leVal (input.take 4) from by omega] at e
    rw [show pyDropLastN 24 ((input.drop 4).take (leVal (input.take 4) - 4))
          ++ (pyTakeLastN 24 ((input.drop 4).take (leVal (input.take 4) - 4))
              ++ input.drop (leVal (input.take 4)))
        = (pyDropLastN 24 ((input.drop 4).take (leVal (input.take 4) - 4))
            ++ pyTakeLastN 24 ((input.drop 4).take (leVal (input.take 4) - 4)))
          ++ input.drop (leVal (input.take 4)) from
        (List.append_assoc _ _ _).symm]
    rw [pyDrop_take_lastN]
    conv_lhs => rw [← List.take_append_drop (leVal (input.take 4)) input, e]
    simp [List.append_assoc]


/-! ### The loop returns only the last measurement's matches, and only
measurement-produced (hence nonempty) match records -/

theorem vdLoop_ok_last (input : List Nat) (meta_only : Bool) :
    ∀ (k i : Nat) (fout : OutFile) (last : Option Matches) (ms : Matches)
      (fout' : OutFile), 1 ≤ k →
      vdLoop input meta_only k i fout last = (.ok ms, fout') →
      ∃ g g', measStep input meta_only (i + k - 1) g = .ok (g', ms) := by
  intro k
  induction k with
  | zero =>
    intro i fout last ms fout' h1
    exact absurd h1 (by omega)
  | succ k ih =>
    intro i fout last ms fout' _ h
    rw [vdLoop] at h
    cases hstep : measStep input meta_only i fout with
    | error e =>
      rw [hstep] at h
      exact absurd (congrArg Prod.fst h) (by simp)
    | ok p =>
      obtain ⟨fout2, m⟩ := p
      rw [hstep] at h
      rcases Nat.eq_zero_or_pos k with hk | hk
      · subst hk
        simp only [vdLoop] at h
        rw [Prod.mk.injEq] at h
        obtain ⟨h1, h2⟩ := h
        have hmm : m = ms := Except.ok.inj h1
        refine ⟨fout, fout2, ?_⟩
        rw [show i + (0 + 1) - 1 = i from by omega, hstep, hmm]
      · obtain ⟨g, g', hg⟩ := ih (i + 1) fout2 (some m) ms fout' hk h
        refine ⟨g, g', ?_⟩
        rw [show i + (k + 1) - 1 = i + 1 + k - 1 from by omega]
        exact hg

theorem measStep_ok_ne_nil {input : List Nat} {meta_only : Bool} {i : Nat}
    {fout f2 : OutFile} {ms : Matches}
    (h : measStep input meta_only i fout = .ok (f2, ms)) : ms ≠ [] := by
  simp only [measStep] at h
  split at h
  · split at h
    · split at h
      · exact absurd h (by simp)
      · next out ms' heq =>
        obtain ⟨_, _, tail, _, _, hm⟩ := anonymize_matches_head heq
        split at h
        · simp only [Except.ok.injEq, Prod.mk.injEq] at h
          rw [← h.2, hm]
          simp
        · simp only [Except.ok.injEq, Prod.mk.injEq] at h
          rw [← h.2, hm]
          simp
    · exact absurd h (by simp)
  · exact absurd h (by simp)

theorem vdLoop_ok_ne_nil (input : List Nat) (meta_only : Bool) :
    ∀ (k i : Nat) (fout : OutFile) (last : Option Matches) (ms : Matches)
      (fout' : OutFile),
      (∀ m, last = some m → m ≠ []) →
      vdLoop input meta_only k i fout last = (.ok ms, fout') → ms ≠ [] := by
  intro k
  induction k with
  | zero =>
    intro i fout last ms fout' hlast h
    cases last with
    | none =>
      simp only [vdLoop] at h
      exact absurd (congrArg Prod.fst h) (by simp)
    | some m =>
      simp only [vdLoop] at h
      rw [Prod.mk.injEq] at h
      rw [← Except.ok.inj h.1]
      exact hlast m rfl
  | succ k ih =>
    intro i fout last ms fout' _ h
    rw [vdLoop] at h
    cases hstep : measStep input meta_only i fout with
    | error e =>
      rw [hstep] at h
      exact absurd (congrArg Prod.fst h) (by simp)
    | ok p =>
      obtain ⟨fout2, m⟩ := p
      rw [hstep] at h
      exact ih (i + 1) fout2 (some m) ms fout'
        (fun m' hm' => by rw [← Option.some.inj hm']; exact measStep_ok_ne_nil hstep) h

theorem vd_ok_ne_nil {input : List Nat} {fout fout' : OutFile} {meta_only : Bool}
    {ms : Matches}
    (h : anonymize_twix_vd input fout meta_only = (.ok ms, fout')) : ms ≠ [] := by
  simp only [anonymize_twix_vd] at h
  split at h
  · exact vdLoop_ok_ne_nil input meta_only _ 0 _ none ms fout' (by simp) h
  · exact absurd (congrArg Prod.fst h) (by simp)

theorem vb_ok_ne_nil {input : List Nat} {fout fout' : OutFile} {meta_only : Bool}
    {ms : Matches}
    (h : anonymize_twix_vb input fout meta_only = (.ok ms, fout')) : ms ≠ [] := by
  simp only [anonymize_twix_vb] at h
  split at h
  · split at h
    · exact absurd (congrArg Prod.fst h) (by simp)
    · next out ms' heq =>
      obtain ⟨_, _, tail, _, _, hm⟩ := anonymize_matches_head heq
      split at h
      · rw [Prod.mk.injEq] at h
        rw [← Except.ok.inj h.1, hm]
        simp
      · rw [Prod.mk.injEq] at h
        rw [← Except.ok.inj h.1, hm]
        simp
  · exact absurd (congrArg Prod.fst h) (by simp)


/-! ### Claim theorems -/

/-- C1: on every header text on which `anonymize_twix_header` succeeds,
the redacted text has exactly the character length of the input text (so
the `header_size` written back equals the one read). -/
theorem C1_redaction_preserves_length {h out : List Char} {m : Matches}
    (hh : anonymize_twix_header h = some (out, m)) : out.length = h.length :=
  anonymize_twix_header_length hh

/-- C3 (amended): the final sweep only rewrites maximal-match substrings
of the form `"` + digits/dots + exam-date + digits/dots + `"`; within
such a match every word character is replaced by `x` (the match text is
mapped character-by-character).  Quoted strings containing the date
along with any other characters are not matched, hence not rewritten. -/
theorem C3_sweep_matches_are_digit_dot_quotes (d : List Char)
    (hd : d.all isDigitChar = true) :
    ∀ (t : List Char) (len : Nat) (caps : Caps),
      matchAt (sweepPat d) t = some (len, caps) →
      ∃ mid, t.take len = '"' :: mid ++ ['"'] ∧ mid.all isDigitOrDot = true ∧
        d <:+: mid ∧
        sweepRepl caps (t.take len)
          = (t.take len).map (fun c => if isWordChar c then 'x' else c) := by
  intro t len caps hm
  obtain ⟨w1, w2, htake, hw1, hw2, hle⟩ := matchAt_sweep hm
  refine ⟨w1 ++ d ++ w2, htake, ?_, ⟨w1, w2, rfl⟩, rfl⟩
  have hdall : d.all isDigitOrDot = true := by
    rw [List.all_eq_true] at hd ⊢
    intro c hc
    unfold isDigitOrDot
    rw [hd c hc]
    rfl
  simp [List.all_append, hw1, hw2, hdall]

/-- C4 (amended): `matches["Exam_date"]` is derived by splitting the
captured `FrameOfReference` value on `.`, indexing component 10, slicing
characters 2..8 as `YYMMDD`, and formatting as `%Y-%m-%d` where the
two-digit year follows CPython's pivot: `00..68 ↦ 2000+YY` but
`69..99 ↦ 1900+YY`. -/
theorem C4_exam_date_derivation {h out v comp : List Char} {m : Matches}
    {st len : Nat} {caps : Caps} {yy mm dd : Nat}
    (hh : anonymize_twix_header h = some (out, m))
    (hs : reSearch forDatePat h = some (st, len, caps))
    (hv : capGroup caps 2 = some v)
    (hc : (splitOnDot v).get? 10 = some comp)
    (hslice : (comp.drop 2).take 6 = pad2 yy ++ pad2 mm ++ pad2 dd)
    (hy : yy < 100) (hm1 : 1 ≤ mm) (hm2 : mm ≤ 12) (hd1 : 1 ≤ dd)
    (hd2 : dd ≤ daysInMonth (pivotYear yy) mm) :
    m.lookup "Exam_date" = some (dateFormat (pivotYear yy) mm dd) := by
  obtain ⟨ed, formatted, hED, hGD, hlk⟩ := anonymize_lookup_exam_date hh
  rw [examDateOf_eq hs hv hc] at hED
  have hED2 : ed = pad2 yy ++ pad2 mm ++ pad2 dd := by
    have := Option.some.inj hED
    rw [← this, hslice]
  rw [hED2] at hGD
  rw [get_date_pad2 hy hm1 hm2 hd1 hd2] at hGD
  rw [hlk, Option.some.inj hGD]

/-- C5: a `number_buffer` match is rewritten to prefix + all-`'0'` value
of the original value's length + suffix, and an `x_buffer` match to
prefix + all-`'x'` value of the original value's length + suffix, the
prefix and suffix reproduced byte-identically (the match is exactly the
concatenation of its groups). -/
theorem C5_blank_and_mask_policies :
    (∀ kp ∈ number_buffer, ∀ (t : List Char) (len : Nat) (caps : Caps),
      matchAt kp.2 t = some (len, caps) →
      ∃ g1 g2 g3, capGroup caps 1 = some g1 ∧ capGroup caps 2 = some g2 ∧
        capGroup caps 3 = some g3 ∧ t.take len = g1 ++ g2 ++ g3 ∧
        numberRepl caps (t.take len)
          = g1 ++ List.replicate g2.length '0' ++ g3) ∧
    (∀ kp ∈ x_buffer, ∀ (t : List Char) (len : Nat) (caps : Caps),
      matchAt kp.2 t = some (len, caps) →
      ∃ g1 g3 g4, capGroup caps 1 = some g1 ∧ capGroup caps 3 = some g3 ∧
        capGroup caps 4 = some g4 ∧ t.take len = g1 ++ g3 ++ g4 ∧
        xRepl caps (t.take len)
          = g1 ++ List.replicate g3.length 'x' ++ g4) := by
  constructor
  · intro kp hkp t len caps hm
    obtain ⟨A, B, C, hpat, hB, hC⟩ := number_buffer_shape kp hkp
    rw [hpat] at hm
    obtain ⟨n1, n2, n3, hlen, hle, h1, h2, h3, htake⟩ := matchAt_pat3 hB hC hm
    exact ⟨_, _, _, h1, h2, h3, htake, by simp [numberRepl, h1, h2, h3]⟩
  · intro kp hkp t len caps hm
    obtain ⟨A, B, C, hpat, hB, hC⟩ := x_buffer_shape kp hkp
    rw [hpat] at hm
    obtain ⟨n1, n2, n3, hlen, hle, h1, h2, h3, htake⟩ := matchAt_pat4 hB hC hm
    exact ⟨_, _, _, h1, h2, h3, htake, by simp [xRepl, h1, h2, h3]⟩

/-- C6: a failed search for a mask-policy (`x_buffer`) field raises
(`match.group(3)` on `None`), which aborts the whole header; a failed
search in the `number`, `zero` or `meta` pass leaves the state — text
and match record — completely unchanged. -/
theorem C6_mask_hard_failure_others_skip :
    (∀ (st : HState) (key : String) (pat : Re), (key, pat) ∈ x_buffer →
      reSearch pat st.1 = none → xStep st key pat = none) ∧
    (∀ (h exam_date formatted : List Char), examDateOf h = some exam_date →
      get_date exam_date = some formatted →
      xPhase (zeroPhase (numberPhase (h, [("Exam_date", formatted)]))) = none →
      anonymize_twix_header h = none) ∧
    (∀ (st : HState) (key : String) (pat : Re), reSearch pat st.1 = none →
      numberStep st key pat = st) ∧
    (∀ (st : HState) (key : String) (pat : Re), reSearch pat st.1 = none →
      zeroStep st key pat = st) ∧
    (∀ (st : HState) (key : String) (pat : Re), reSearch pat st.1 = none →
      metaStep st key pat = st) := by
  refine ⟨?_, ?_, ?_, ?_, ?_⟩
  · intro st key pat _ hs
    unfold xStep
    rw [hs]
  · intro h exam_date formatted h1 h2 h3
    simp [anonymize_twix_header, h1, h2, h3]
  · intro st key pat hs
    unfold numberStep
    rw [hs]
  · intro st key pat hs
    unfold zeroStep
    rw [hs]
  · intro st key pat hs
    unfold metaStep
    rw [hs]

/-- C7 (amended): re-running the redactor on a header whose captured
`FrameOfReference` value has fewer than 11 dot-components — which is
what redaction produces, since the `number_buffer` pass replaces the
dotted value by zeros — fails (IndexError in the exam-date derivation)
instead of being a no-op. -/
theorem C7_second_pass_fails {t v : List Char} {st len : Nat} {caps : Caps}
    (hs : reSearch forDatePat t = some (st, len, caps))
    (hv : capGroup caps 2 = some v)
    (hc : (splitOnDot v).get? 10 = none) :
    anonymize_twix_header t = none := by
  have hed : examDateOf t = none := by
    simp only [examDateOf, hs, Option.some_bind, hv]
    rw [hc]
    rfl
  simp [anonymize_twix_header, hed]

/-- C10: a Variant A container whose measurement count is `0` makes
`anonymize_twix_vd` fail — the loop body never runs, so the `matches`
variable is unassigned (`NameError`) at the `return` — rather than
returning an empty match record. -/
theorem C10_zero_measurements_fail (input : List Nat) (fout : OutFile)
    (meta_only : Bool) (h8 : (pyRead input 0 8).length = 8)
    (h0 : leVal ((pyRead input 0 8).drop 4) = 0) :
    (anonymize_twix_vd input fout meta_only).1 = .error () := by
  unfold anonymize_twix_vd
  simp only [h8, h0, if_true, vdLoop]

/-- C2 (amended): measurement payloads, table-entry fields other than
`patient_name`, the `header_size` field and the 24 trailing header bytes
round-trip byte-identically *when the measurement blocks exactly tile the
container* — an exactly-tiled VD container rewrites to the same byte
layout with only the patient-name field (64 `'x'` bytes) and the header
text replaced, and a VB container rewrites to
size-field ++ redacted text ++ trailing ++ payload.  (Without the tiling
hypothesis the claim is false: bytes in a gap between the written regions
are zero-filled, see the counterexample.) -/
theorem C2_frame_round_trip :
    (∀ (input : List Nat) (N : Nat),
      1 ≤ N →
      (∀ b ∈ input, b < 256) →
      leVal ((input.take 8).drop 4) = N →
      (∀ i, i < N → measOffset input i = blockStart input N i) →
      (∀ i, i < N → 4 ≤ measHS input i ∧ measHS input i ≤ measLen input i) →
      blockStart input N N = input.length →
      (∀ i, i < N →
        anonymize_twix_header (latin1Decode (pyDropLastN 24 (measHdr input i)))
          ≠ none) →
      ∃ ms fout',
        anonymize_twix_vd input OutFile.empty false = (.ok ms, fout') ∧
        renderOut fout'
          = (input.take 8 ++ (List.range N).flatMap (anonEntry input))
            ++ (List.range N).flatMap (anonBlockOf input) ∧
        input
          = (input.take 8 ++ (List.range N).flatMap (tblEntry input))
            ++ (List.range N).flatMap
                (fun i => pyRead input (measOffset input i) (measLen input i)) ∧
        (∀ i, i < N →
          tblEntry input i
            = (tblEntry input i).take 24
              ++ (((tblEntry input i).drop 24).take 64
                  ++ ((tblEntry input i).drop 88).take 64) ∧
          (anonEntry input i).length = 152 ∧
          pyRead input (measOffset input i) (measLen input i)
            = pyRead input (measOffset input i) 4
              ++ (measHdr input i
                ++ pyRead input (measOffset input i + measHS input i)
                    (measLen input i - measHS input i)) ∧
          pyDropLastN 24 (measHdr input i) ++ pyTakeLastN 24 (measHdr input i)
            = measHdr input i ∧
          (anonBlockOf input i).length = measLen input i)) ∧
    (∀ (input : List Nat) (out : List Char) (ms : Matches),
      (∀ b ∈ input, b < 256) →
      4 ≤ leVal (input.take 4) →
      leVal (input.take 4) ≤ input.length →
      anonymize_twix_header (latin1Decode (pyDropLastN 24
          ((input.drop 4).take (leVal (input.take 4) - 4)))) = some (out, ms) →
      ∃ fout',
        anonymize_twix_vb input OutFile.empty false = (.ok ms, fout') ∧
        renderOut fout'
          = input.take 4 ++ latin1Encode out
              ++ pyTakeLastN 24 ((input.drop 4).take (leVal (input.take 4) - 4))
              ++ input.drop (leVal (input.take 4)) ∧
        (latin1Encode out).length
          = (pyDropLastN 24 ((input.drop 4).take (leVal (input.take 4) - 4))).length ∧
        input
          = input.take 4
              ++ (pyDropLastN 24 ((input.drop 4).take (leVal (input.take 4) - 4))
                  ++ (pyTakeLastN 24 ((input.drop 4).take (leVal (input.take 4) - 4))
                      ++ input.drop (leVal (input.take 4))))) := by
  constructor
  · intro input N HN Hb Hsig Hoff Hhs Hend Hanon
    obtain ⟨ms, fout', hvd, hrender⟩ :=
      anonymize_twix_vd_tiled input N HN Hb Hsig Hoff Hhs Hend Hanon
    have hlen : 8 + 152 * N ≤ input.length := by
      have h0 := blockStart_mono input N (Nat.zero_le N)
      have hb0 : blockStart input N 0 = 8 + 152 * N := rfl
      omega
    refine ⟨ms, fout', hvd, hrender, tiled_input_decomp input N Hoff Hend, ?_⟩
    intro i hi
    have hE : (tblEntry input i).length = 152 := by
      rw [tblEntry, pyRead_length]
      omega
    obtain ⟨hhs4, hhl⟩ := Hhs i hi
    have hr : measOffset input i + measLen input i ≤ input.length := by
      have h1 : blockStart input N (i + 1) ≤ blockStart input N N :=
        blockStart_mono input N (by omega)
      have h2 : blockStart input N (i + 1)
          = blockStart input N i + measLen input i := rfl
      rw [Hoff i hi]
      omega
    obtain ⟨⟨out, ms_i⟩, ha⟩ := Option.ne_none_iff_exists'.mp (Hanon i hi)
    exact ⟨entry_split (tblEntry input i) hE, anonEntry_length input i hE,
      block_split input i hhs4 hhl hr, pyDrop_take_lastN 24 (measHdr input i),
      anonBlockOf_length input i hhs4 hhl hr ha⟩
  · intro input out ms Hb hhs4 hhl ha
    exact anonymize_twix_vb_frame input Hb hhs4 hhl ha

/-- C8: whenever `anonymize_twix_vd` succeeds, the measurement count `N`
read from the signature is at least 1 and the returned match record is
exactly the one produced by the measurement step at the last index
`N - 1` — a multi-measurement file reports only its final measurement's
matches. -/
theorem C8_last_measurement_matches (input : List Nat) (fout : OutFile)
    (meta_only : Bool) (ms : Matches)
    (h : (anonymize_twix_vd input fout meta_only).1 = .ok ms) :
    1 ≤ leVal ((pyRead input 0 8).drop 4) ∧
    ∃ g g', measStep input meta_only (leVal ((pyRead input 0 8).drop 4) - 1) g
        = .ok (g', ms) := by
  simp only [anonymize_twix_vd] at h
  by_cases h8 : (pyRead input 0 8).length = 8
  · rw [if_pos h8] at h
    rcases Nat.eq_zero_or_pos (leVal ((pyRead input 0 8).drop 4)) with h0 | h1
    · rw [h0] at h
      simp only [vdLoop] at h
      exact absurd h (by simp)
    · refine ⟨h1, ?_⟩
      obtain ⟨g, g', hg⟩ :=
        vdLoop_ok_last input meta_only (leVal ((pyRead input 0 8).drop 4)) 0 _
          none ms _ h1 (by rw [← h])
      rw [show 0 + leVal ((pyRead input 0 8).drop 4) - 1
          = leVal ((pyRead input 0 8).drop 4) - 1 from by omega] at hg
      exact ⟨g, g', hg⟩
  · rw [if_neg h8] at h
    exact absurd h (by simp)

/-- C9 (amended): a truncated signature (fewer than 8 bytes) fails before
the output file is created, so nothing is left on disk; but on every
*later* fatal path a partial container file remains on disk (the original
claim of "no partial output on any fatal path" is refuted by the
counterexample); and a metadata-only run that succeeds produces a
nonempty match record and leaves no container file. -/
theorem C9_fatal_paths_and_meta_only :
    (∀ (input : List Nat) (meta_only : Bool), (pyRead input 0 8).length ≠ 8 →
      read_and_anonymize input meta_only = (.error (), none)) ∧
    (∀ (input : List Nat) (meta_only : Bool) (f : Option (List Nat)),
      (pyRead input 0 8).length = 8 →
      read_and_anonymize input meta_only = (.error (), f) →
      ∃ c, f = some c) ∧
    (∀ (input : List Nat) (ms : Matches) (f : Option (List Nat)),
      read_and_anonymize input true = (.ok ms, f) → f = none ∧ ms ≠ []) := by
  refine ⟨?_, ?_, ?_⟩
  · intro input meta_only h8
    simp only [read_and_anonymize]
    rw [if_neg h8]
  · intro input meta_only f h8 h
    simp only [read_and_anonymize] at h
    rw [if_pos h8] at h
    by_cases hv : leVal (input.take 4) = 0 ∧ leVal ((input.drop 4).take 4) ≤ 64
    · rw [if_pos hv] at h
      cases hres : anonymize_twix_vd input OutFile.empty meta_only with
      | mk r fout =>
        rw [hres] at h
        cases r with
        | error e =>
          rw [Prod.mk.injEq] at h
          exact ⟨renderOut fout, h.2.symm⟩
        | ok m =>
          by_cases hm : meta_only = true <;> simp [hm] at h
    · rw [if_neg hv] at h
      cases hres : anonymize_twix_vb input OutFile.empty meta_only with
      | mk r fout =>
        rw [hres] at h
        cases r with
        | error e =>
          rw [Prod.mk.injEq] at h
          exact ⟨renderOut fout, h.2.symm⟩
        | ok m =>
          by_cases hm : meta_only = true <;> simp [hm] at h
  · intro input ms f h
    simp only [read_and_anonymize] at h
    by_cases h8 : (pyRead input 0 8).length = 8
    · rw [if_pos h8] at h
      by_cases hv : leVal (input.take 4) = 0 ∧ leVal ((input.drop 4).take 4) ≤ 64
      · rw [if_pos hv] at h
        cases hres : anonymize_twix_vd input OutFile.empty true with
        | mk r fout =>
          rw [hres] at h
          cases r with
          | error e => exact absurd h (by simp)
          | ok m =>
            simp only [if_true, Prod.mk.injEq] at h
            refine ⟨h.2.symm, ?_⟩
            rw [← Except.ok.inj h.1]
            exact vd_ok_ne_nil hres
      · rw [if_neg hv] at h
        cases hres : anonymize_twix_vb input OutFile.empty true with
        | mk r fout =>
          rw [hres] at h
          cases r with
          | error e => exact absurd h (by simp)
          | ok m =>
            simp only [if_true, Prod.mk.injEq] at h
            refine ⟨h.2.symm, ?_⟩
            rw [← Except.ok.inj h.1]
            exact vb_ok_ne_nil hres
    · rw [if_neg h8] at h
      exact absurd h (by simp)

/-! ### Concrete evaluations (shared by the witnesses below) -/

set_option maxRecDepth 10000 in
set_option maxHeartbeats 8000000 in
theorem hdrMain_eval : anonymize_twix_header hdrMain = some (outMain, msMain) := by
  decide

set_option maxRecDepth 10000 in
set_option maxHeartbeats 4000000 in
theorem hdrMain_search : reSearch forDatePat hdrMain = some (41, 88, capsMain) := by
  decide

set_option maxRecDepth 10000 in
set_option maxHeartbeats 4000000 in
theorem outMain_search : reSearch forDatePat outMain = some (41, 88, capsOut) := by
  decide

set_option maxRecDepth 10000 in
set_option maxHeartbeats 8000000 in
theorem contA_anon : ∀ i, i < 2 →
    anonymize_twix_header (latin1Decode (pyDropLastN 24 (measHdr contA i))) ≠ none := by
  intro i hi
  interval_cases i <;> decide

set_option maxRecDepth 10000 in
set_option maxHeartbeats 8000000 in
theorem contA_meta_eval :
    (anonymize_twix_vd contA OutFile.empty true).1 = .ok msA1 := by
  decide

set_option maxRecDepth 10000 in
set_option maxHeartbeats 8000000 in
theorem contA_ra_eval : read_and_anonymize contA true = (.ok msA1, none) := by
  decide

set_option maxRecDepth 10000 in
set_option maxHeartbeats 8000000 in
theorem vbIn_hdr_eval :
    anonymize_twix_header (latin1Decode (pyDropLastN 24
      ((vbIn.drop 4).take (leVal (vbIn.take 4) - 4)))) = some (outVB, msJD) := by
  decide

set_option maxRecDepth 10000 in
set_option maxHeartbeats 4000000 in
theorem hdrC6_xphase :
    xPhase (zeroPhase (numberPhase (hdrC6,
      [("Exam_date", ("2023-06-15" : String).toList)]))) = none := by
  decide

set_option maxRecDepth 10000 in
theorem contA_bytes_all : contA.all (fun b => decide (b < 256)) = true := by decide

theorem contA_bytes : ∀ b ∈ contA, b < 256 :=
  fun b hb => of_decide_eq_true (List.all_eq_true.mp contA_bytes_all b hb)

/-! ### Witnesses and counterexamples -/

set_option maxRecDepth 10000 in
set_option maxHeartbeats 4000000 in
/-- C1 witness: the validated sample header redacts successfully and the
redacted text has its exact length. -/
theorem C1_redaction_preserves_length_witness :
    anonymize_twix_header hdrMain = some (outMain, msMain) ∧
    outMain.length = hdrMain.length :=
  ⟨hdrMain_eval, C1_redaction_preserves_length hdrMain_eval⟩

set_option maxRecDepth 10000 in
set_option maxHeartbeats 8000000 in
/-- C2 witness: an exactly-tiled two-measurement VD container and a VB
container, with all the tiling hypotheses checked concretely. -/
theorem C2_frame_round_trip_witness :
    ((∀ b ∈ contA, b < 256) ∧
     leVal ((contA.take 8).drop 4) = 2 ∧
     (∀ i, i < 2 → measOffset contA i = blockStart contA 2 i) ∧
     (∀ i, i < 2 → 4 ≤ measHS contA i ∧ measHS contA i ≤ measLen contA i) ∧
     blockStart contA 2 2 = contA.length ∧
     (∃ ms fout',
       anonymize_twix_vd contA OutFile.empty false = (.ok ms, fout') ∧
       renderOut fout'
         = (contA.take 8 ++ (List.range 2).flatMap (anonEntry contA))
           ++ (List.range 2).flatMap (anonBlockOf contA) ∧
       contA
         = (contA.take 8 ++ (List.range 2).flatMap (tblEntry contA))
           ++ (List.range 2).flatMap
               (fun i => pyRead contA (measOffset contA i) (measLen contA i)) ∧
       (∀ i, i < 2 →
         tblEntry contA i
           = (tblEntry contA i).take 24
             ++ (((tblEntry contA i).drop 24).take 64
                 ++ ((tblEntry contA i).drop 88).take 64) ∧
         (anonEntry contA i).length = 152 ∧
         pyRead contA (measOffset contA i) (measLen contA i)
           = pyRead contA (measOffset contA i) 4
             ++ (measHdr contA i
               ++ pyRead contA (measOffset contA i + measHS contA i)
                   (measLen contA i - measHS contA i)) ∧
         pyDropLastN 24 (measHdr contA i) ++ pyTakeLastN 24 (measHdr contA i)
           = measHdr contA i ∧
         (anonBlockOf contA i).length = measLen contA i))) ∧
    ((∀ b ∈ vbIn, b < 256) ∧
     4 ≤ leVal (vbIn.take 4) ∧
     leVal (vbIn.take 4) ≤ vbIn.length ∧
     (∃ fout',
       anonymize_twix_vb vbIn OutFile.empty false = (.ok msJD, fout') ∧
       renderOut fout'
         = vbIn.take 4 ++ latin1Encode outVB
             ++ pyTakeLastN 24 ((vbIn.drop 4).take (leVal (vbIn.take 4) - 4))
             ++ vbIn.drop (leVal (vbIn.take 4)) ∧
       (latin1Encode outVB).length
         = (pyDropLastN 24 ((vbIn.drop 4).take (leVal (vbIn.take 4) - 4))).length ∧
       vbIn
         = vbIn.take 4
             ++ (pyDropLastN 24 ((vbIn.drop 4).take (leVal (vbIn.take 4) - 4))
                 ++ (pyTakeLastN 24 ((vbIn.drop 4).take (leVal (vbIn.take 4) - 4))
                     ++ vbIn.drop (leVal (vbIn.take 4)))))) :=
  ⟨⟨contA_bytes, by decide, by decide, by decide, by decide,
    C2_frame_round_trip.1 contA 2 (by decide) contA_bytes (by decide) (by decide)
      (by decide) (by decide) contA_anon⟩,
   ⟨by decide, by decide, by decide,
    C2_frame_round_trip.2 vbIn outVB msJD (by decide) (by decide) (by decide)
      vbIn_hdr_eval⟩⟩

set_option maxRecDepth 10000 in
set_option maxHeartbeats 8000000 in
/-- C2 counterexample: in this VD container the single measurement block
starts at byte 161 while the measurement table ends at byte 160, so byte
160 lies outside every table entry and every measurement block; the
input has 255 there, the output 0 — the unwritten gap is zero-filled,
not copied, refuting unconditional byte-identity outside the redacted
regions. -/
theorem C2_gap_byte_zero_filled :
    leVal ((gapIn.take 8).drop 4) = 1 ∧
    measOffset gapIn 0 = 161 ∧
    gapIn.getD 160 0 = 255 ∧
    (anonymize_twix_vd gapIn OutFile.empty false).1 = .ok msJD ∧
    (renderOut (anonymize_twix_vd gapIn OutFile.empty false).2).getD 160 0 = 0 :=
  ⟨by decide, by decide, by decide, by decide, by decide⟩

set_option maxRecDepth 10000 in
set_option maxHeartbeats 4000000 in
/-- C3 witness: a quoted digits-and-dots string containing the exam date
is matched by the sweep, and within the match every word character maps
to `'x'`. -/
theorem C3_sweep_witness :
    (("230615" : String).toList).all isDigitChar = true ∧
    matchAt (sweepPat (("230615" : String).toList))
      (("\"1.23.230615.88\" tail" : String).toList) = some (16, []) ∧
    (∃ mid,
      ((("\"1.23.230615.88\" tail" : String).toList).take 16 = '"' :: mid ++ ['"'] ∧
      mid.all isDigitOrDot = true ∧
      (("230615" : String).toList) <:+: mid ∧
      sweepRepl [] ((("\"1.23.230615.88\" tail" : String).toList).take 16)
        = ((("\"1.23.230615.88\" tail" : String).toList).take 16).map
            (fun c => if isWordChar c then 'x' else c))) :=
  ⟨by decide, by decide,
   C3_sweep_matches_are_digit_dot_quotes (("230615" : String).toList) (by decide)
     (("\"1.23.230615.88\" tail" : String).toList) 16 [] (by decide)⟩

set_option maxRecDepth 10000 in
set_option maxHeartbeats 4000000 in
/-- C3 counterexample: the sample header's `Landmark` value
`"LM_A230615"` contains the raw exam date inside a quoted string, yet it
survives redaction verbatim (the sweep only rewrites all-digit/dot
quoted strings), refuting "every quoted string containing the date is
masked". -/
theorem C3_landmark_left_unmasked :
    anonymize_twix_header hdrMain = some (outMain, msMain) ∧
    msMain.lookup "Exam_date" = some (("2023-06-15" : String).toList) ∧
    (("230615" : String).toList) <:+: (("LM_A230615" : String).toList) ∧
    ('"' :: ((("LM_A230615" : String).toList) ++ ['"'])) <:+: hdrMain ∧
    ('"' :: ((("LM_A230615" : String).toList) ++ ['"'])) <:+: outMain :=
  ⟨hdrMain_eval, by decide, by decide, by decide, by decide⟩

set_option maxRecDepth 10000 in
set_option maxHeartbeats 4000000 in
/-- C4 witness: the sample header's `FrameOfReference` dot-component 10
is `30230615095059`, sliced to `230615` and formatted as `2023-06-15`. -/
theorem C4_exam_date_witness :
    anonymize_twix_header hdrMain = some (outMain, msMain) ∧
    reSearch forDatePat hdrMain = some (41, 88, capsMain) ∧
    capGroup capsMain 2
      = some (("\"1.3.12.2.1107.5.2.19.45420.99.30230615095059.0\"" : String).toList) ∧
    (splitOnDot (("\"1.3.12.2.1107.5.2.19.45420.99.30230615095059.0\"" : String).toList)).get? 10
      = some (("30230615095059" : String).toList) ∧
    (((("30230615095059" : String).toList).drop 2).take 6
      = pad2 23 ++ pad2 6 ++ pad2 15) ∧
    msMain.lookup "Exam_date" = some (dateFormat (pivotYear 23) 6 15) ∧
    dateFormat (pivotYear 23) 6 15 = ("2023-06-15" : String).toList := by
  have hv : capGroup capsMain 2
      = some (("\"1.3.12.2.1107.5.2.19.45420.99.30230615095059.0\"" : String).toList) := by
    decide
  have hc : (splitOnDot (("\"1.3.12.2.1107.5.2.19.45420.99.30230615095059.0\"" : String).toList)).get? 10
      = some (("30230615095059" : String).toList) := by decide
  have hslice : ((("30230615095059" : String).toList).drop 2).take 6
      = pad2 23 ++ pad2 6 ++ pad2 15 := by decide
  refine ⟨hdrMain_eval, hdrMain_search, hv, hc, hslice, ?_, by decide⟩
  exact @C4_exam_date_derivation hdrMain outMain
    (("\"1.3.12.2.1107.5.2.19.45420.99.30230615095059.0\"" : String).toList)
    (("30230615095059" : String).toList) msMain 41 88 capsMain 23 6 15
    hdrMain_eval hdrMain_search hv hc hslice (by decide) (by decide) (by decide)
    (by decide) (by decide)

set_option maxRecDepth 10000 in
set_option maxHeartbeats 4000000 in
/-- C4 counterexample: a header whose date slice is `690615` yields
`Exam_date == "1969-06-15"` (CPython's two-digit-year pivot), not the
`2000+YY` reading `"2069-06-15"` of the claim. -/
theorem C4_year_pivot_cex :
    (anonymize_twix_header hdrB).map (fun p => p.2.lookup "Exam_date")
      = some (some (("1969-06-15" : String).toList)) ∧
    ("1969-06-15" : String).toList ≠ ("2069-06-15" : String).toList :=
  ⟨by decide, by decide⟩

set_option maxRecDepth 10000 in
set_option maxHeartbeats 4000000 in
/-- C5 witness: one field of each policy, matched on a concrete line. -/
theorem C5_policies_witness :
    matchAt (paramStrPat "PatientID")
      (("<ParamString.\"PatientID\">  \x7b \"PAT1234\" \x7d\n" : String).toList)
      = some (41, capsPID) ∧
    (∃ g1 g2 g3, capGroup capsPID 1 = some g1 ∧ capGroup capsPID 2 = some g2 ∧
      capGroup capsPID 3 = some g3 ∧
      ((("<ParamString.\"PatientID\">  \x7b \"PAT1234\" \x7d\n" : String).toList).take 41
        = g1 ++ g2 ++ g3) ∧
      numberRepl capsPID
          ((("<ParamString.\"PatientID\">  \x7b \"PAT1234\" \x7d\n" : String).toList).take 41)
        = g1 ++ List.replicate g2.length '0' ++ g3) ∧
    matchAt xPatientNamePat
      (("<ParamString.\"tPatientsName\">  \x7b \"Doe\" \x7d\n" : String).toList)
      = some (41, capsPN) ∧
    (∃ g1 g3 g4, capGroup capsPN 1 = some g1 ∧ capGroup capsPN 3 = some g3 ∧
      capGroup capsPN 4 = some g4 ∧
      ((("<ParamString.\"tPatientsName\">  \x7b \"Doe\" \x7d\n" : String).toList).take 41
        = g1 ++ g3 ++ g4) ∧
      xRepl capsPN
          ((("<ParamString.\"tPatientsName\">  \x7b \"Doe\" \x7d\n" : String).toList).take 41)
        = g1 ++ List.replicate g3.length 'x' ++ g4) :=
  ⟨by decide,
   C5_blank_and_mask_policies.1 ("Patient_id", paramStrPat "PatientID")
     (List.Mem.head _)
     (("<ParamString.\"PatientID\">  \x7b \"PAT1234\" \x7d\n" : String).toList)
     41 capsPID (by decide),
   by decide,
   C5_blank_and_mask_policies.2 ("Patient_name", xPatientNamePat)
     (List.Mem.head _)
     (("<ParamString.\"tPatientsName\">  \x7b \"Doe\" \x7d\n" : String).toList)
     41 capsPN (by decide)⟩

set_option maxRecDepth 10000 in
set_option maxHeartbeats 4000000 in
/-- C6 witness: a missing mask-policy field aborts (both at the step and
for a whole header missing `tPatientsName`), while missing fields of the
other policies leave the state unchanged. -/
theorem C6_policy_witness :
    reSearch xPatientNamePat (("no patient here\n" : String).toList) = none ∧
    xStep ((("no patient here\n" : String).toList), ([] : Matches))
      "Patient_name" xPatientNamePat = none ∧
    examDateOf hdrC6 = some (("230615" : String).toList) ∧
    get_date (("230615" : String).toList) = some (("2023-06-15" : String).toList) ∧
    xPhase (zeroPhase (numberPhase (hdrC6,
      [("Exam_date", ("2023-06-15" : String).toList)]))) = none ∧
    anonymize_twix_header hdrC6 = none ∧
    numberStep ((("no patient here\n" : String).toList), ([] : Matches))
      "Patient_id" (paramStrPat "PatientID")
      = ((("no patient here\n" : String).toList), ([] : Matches)) ∧
    zeroStep ((("no patient here\n" : String).toList), ([] : Matches))
      "Patient_id" (paramStrPat "PatientID")
      = ((("no patient here\n" : String).toList), ([] : Matches)) ∧
    metaStep ((("no patient here\n" : String).toList), ([] : Matches))
      "Patient_id" (paramStrPat "PatientID")
      = ((("no patient here\n" : String).toList), ([] : Matches)) :=
  ⟨by decide,
   C6_mask_hard_failure_others_skip.1
     ((("no patient here\n" : String).toList), ([] : Matches))
     "Patient_name" xPatientNamePat (List.Mem.head _) (by decide),
   by decide, by decide, hdrC6_xphase,
   C6_mask_hard_failure_others_skip.2.1 hdrC6 (("230615" : String).toList)
     (("2023-06-15" : String).toList) (by decide) (by decide) hdrC6_xphase,
   C6_mask_hard_failure_others_skip.2.2.1
     ((("no patient here\n" : String).toList), ([] : Matches))
     "Patient_id" (paramStrPat "PatientID") (by decide),
   C6_mask_hard_failure_others_skip.2.2.2.1
     ((("no patient here\n" : String).toList), ([] : Matches))
     "Patient_id" (paramStrPat "PatientID") (by decide),
   C6_mask_hard_failure_others_skip.2.2.2.2
     ((("no patient here\n" : String).toList), ([] : Matches))
     "Patient_id" (paramStrPat "PatientID") (by decide)⟩

set_option maxRecDepth 10000 in
set_option maxHeartbeats 4000000 in
/-- C7 witness: the redacted sample header's `FrameOfReference` value is
all zeros, so its dot-split has a single component and the second pass
fails. -/
theorem C7_second_pass_witness :
    reSearch forDatePat outMain = some (41, 88, capsOut) ∧
    capGroup capsOut 2 = some ('"' :: (List.replicate 46 '0' ++ ['"'])) ∧
    (splitOnDot ('"' :: (List.replicate 46 '0' ++ ['"']))).get? 10 = none ∧
    anonymize_twix_header outMain = none := by
  have hv : capGroup capsOut 2 = some ('"' :: (List.replicate 46 '0' ++ ['"'])) := by
    decide
  have hc : (splitOnDot ('"' :: (List.replicate 46 '0' ++ ['"']))).get? 10 = none := by
    decide
  exact ⟨outMain_search, hv, hc, C7_second_pass_fails outMain_search hv hc⟩

set_option maxRecDepth 10000 in
set_option maxHeartbeats 8000000 in
/-- C7 counterexample: re-running the redactor on the already-redacted
sample header does not succeed as a no-op — it fails (the Python raises
IndexError in the exam-date derivation). -/
theorem C7_second_pass_crash_cex :
    anonymize_twix_header hdrMain = some (outMain, msMain) ∧
    anonymize_twix_header outMain = none :=
  ⟨hdrMain_eval, by decide⟩

set_option maxRecDepth 10000 in
set_option maxHeartbeats 4000000 in
/-- C8 witness: on the two-measurement container the returned matches
(`Patient_name == "XY"`) are exactly the second measurement's. -/
theorem C8_last_measurement_witness :
    (anonymize_twix_vd contA OutFile.empty true).1 = .ok msA1 ∧
    (1 ≤ leVal ((pyRead contA 0 8).drop 4) ∧
     ∃ g g', measStep contA true (leVal ((pyRead contA 0 8).drop 4) - 1) g
        = .ok (g', msA1)) :=
  ⟨contA_meta_eval,
   C8_last_measurement_matches contA OutFile.empty true msA1 contA_meta_eval⟩

set_option maxRecDepth 10000 in
set_option maxHeartbeats 4000000 in
/-- C9 witness: a 3-byte input leaves nothing on disk; a fatal path after
a complete signature leaves a file; metadata-only success reports a
nonempty record and leaves no file. -/
theorem C9_fatal_paths_witness :
    ((pyRead ([1, 2, 3] : List Nat) 0 8).length ≠ 8 ∧
     read_and_anonymize [1, 2, 3] false = (.error (), none)) ∧
    ((pyRead ([0, 0, 0, 0, 1, 0, 0, 0] : List Nat) 0 8).length = 8 ∧
     read_and_anonymize [0, 0, 0, 0, 1, 0, 0, 0] false
       = (.error (), some [0, 0, 0, 0, 1, 0, 0, 0]) ∧
     (∃ c, (some [0, 0, 0, 0, 1, 0, 0, 0] : Option (List Nat)) = some c)) ∧
    (read_and_anonymize contA true = (.ok msA1, none) ∧
     ((none : Option (List Nat)) = none ∧ msA1 ≠ [])) :=
  ⟨⟨by decide, C9_fatal_paths_and_meta_only.1 [1, 2, 3] false (by decide)⟩,
   ⟨by decide, by decide,
    C9_fatal_paths_and_meta_only.2.1 [0, 0, 0, 0, 1, 0, 0, 0] false
      (some [0, 0, 0, 0, 1, 0, 0, 0]) (by decide) (by decide)⟩,
   ⟨contA_ra_eval,
    C9_fatal_paths_and_meta_only.2.2 contA msA1 none contA_ra_eval⟩⟩

set_option maxRecDepth 10000 in
set_option maxHeartbeats 4000000 in
/-- C9 counterexample: an 8-byte VD signature announcing one measurement
and nothing else is a fatal path (the table read fails), yet the 8-byte
partial output container remains on disk. -/
theorem C9_partial_file_left_cex :
    (pyRead ([0, 0, 0, 0, 1, 0, 0, 0] : List Nat) 0 8).length = 8 ∧
    read_and_anonymize [0, 0, 0, 0, 1, 0, 0, 0] false
      = (.error (), some [0, 0, 0, 0, 1, 0, 0, 0]) :=
  ⟨by decide, by decide⟩

set_option maxRecDepth 10000 in
set_option maxHeartbeats 4000000 in
/-- C10 witness: the all-zero 8-byte container is well-formed for the
dispatcher (twix id 0, count 0 ≤ 64) yet `anonymize_twix_vd` fails. -/
theorem C10_zero_measurements_witness :
    (pyRead ([0, 0, 0, 0, 0, 0, 0, 0] : List Nat) 0 8).length = 8 ∧
    leVal ((pyRead ([0, 0, 0, 0, 0, 0, 0, 0] : List Nat) 0 8).drop 4) = 0 ∧
    (anonymize_twix_vd [0, 0, 0, 0, 0, 0, 0, 0] OutFile.empty false).1 = .error () :=
  ⟨by decide, by decide,
   C10_zero_measurements_fail [0, 0, 0, 0, 0, 0, 0, 0] OutFile.empty false
     (by decide) (by decide)⟩

end TwixAnon
